import Mathlib

/-!
Verification development for the medbill-upload-widget repository.

The subsystem under study is the DB-backed case-progress endpoint
(`handleCaseProgress` and `validateStepData` in the DB-backed route, the
Prisma transaction that inserts a `CaseProgressEvent` row and upserts the
`Case` row, and the best-effort Google-Sheets mirror), plus the bill-token
helpers (`signBillToken` / `verifyBillToken`) and the hospital autocomplete
endpoint (`GET /api/hospitals`).

JSON values exchanged with the endpoint are modelled by the inductive
`JsonVal`.  JavaScript objects are modelled as association lists of
key/value pairs (`JFields`): property lookup reads the first matching key,
property assignment overwrites the first matching key in place or appends a
fresh key at the end, exactly the observable behaviour of the object spread
and computed-key updates used by the route.  JSON numbers are modelled as
integers (the route never does arithmetic on them; `new Prisma.Decimal(n)`
is modelled as the identity).  Server-side nondeterminism (generated UUIDs,
request geo data, database faults, sheet-mirror faults) is passed to the
model as explicit parameters.
-/

mutual
/-- A JSON value, as produced by `req.json()` in the route. -/
inductive JsonVal : Type where
  | str (s : String)
  | num (n : Int)
  | bool (b : Bool)
  | null
  | obj (fields : JFields)
  | arr (items : JItems)
  deriving DecidableEq, Repr

/-- The fields of a JSON object, in insertion order. -/
inductive JFields : Type where
  | nil
  | cons (key : String) (val : JsonVal) (rest : JFields)
  deriving DecidableEq, Repr

/-- The items of a JSON array. -/
inductive JItems : Type where
  | nil
  | cons (val : JsonVal) (rest : JItems)
  deriving DecidableEq, Repr
end

namespace JFields

/-- Property lookup on a JavaScript object: first matching key, `none` is
`undefined`. -/
def get : JFields → String → Option JsonVal
  | .nil, _ => none
  | .cons k v rest, key => if k = key then some v else rest.get key

/-- Property assignment on a JavaScript object (also the effect of
`{...fs, [key]: v}`): overwrite the first occurrence of `key` in place,
or append the pair at the end when `key` is absent. -/
def set : JFields → String → JsonVal → JFields
  | .nil, key, v => .cons key v .nil
  | .cons k w rest, key, v =>
      if k = key then .cons k v rest else .cons k w (rest.set key v)

/-- Does the object have this key? -/
def hasKey : JFields → String → Bool
  | .nil, _ => false
  | .cons k _ rest, key => k = key || rest.hasKey key

end JFields

namespace JsonVal

/-- JavaScript falsiness of a JSON value (`!v`): `null`, `""`, `0` and
`false` are falsy; objects and arrays are always truthy. -/
def falsy : JsonVal → Bool
  | .str s => s = ""
  | .num n => n = 0
  | .bool b => !b
  | .null => true
  | .obj _ => false
  | .arr _ => false

/-- JavaScript truthiness (`!!v`). -/
def truthy (v : JsonVal) : Bool := !v.falsy

/-- `typeof v === 'object'` for a JSON value: objects, arrays and `null`. -/
def typeofObject : JsonVal → Bool
  | .obj _ => true
  | .arr _ => true
  | .null => true
  | _ => false

/-- Property access `v.key`: defined on objects, `undefined` (`none`)
on every other JSON value that admits property access.  (Access on the
JSON value `null` throws a `TypeError` in JavaScript; callers of `get`
in this development model that throw separately.) -/
def get : JsonVal → String → Option JsonVal
  | .obj fs, key => fs.get key
  | _, _ => none

end JsonVal

/-- Truthiness of a possibly-`undefined` value (`!x` on a field access). -/
def truthyOpt : Option JsonVal → Bool
  | none => false
  | some v => v.truthy

/-- `x !== undefined && typeof x === 'string'` for a field access. -/
def isStringField : Option JsonVal → Bool
  | some (.str _) => true
  | _ => false

/-- `x !== undefined && typeof x === 'number'` for a field access. -/
def isNumberField : Option JsonVal → Bool
  | some (.num _) => true
  | _ => false

/-- `x !== undefined && typeof x === 'boolean'` for a field access. -/
def isBooleanField : Option JsonVal → Bool
  | some (.bool _) => true
  | _ => false

/-- A character allowed by the `[^\s@]` classes of the route's email
regular expression: neither whitespace nor `@`. -/
def emailChar (c : Char) : Bool := !c.isWhitespace && c != '@'

/-- Full-match semantics of the route's regular expression
`/^[^\s@]+@[^\s@]+\.[^\s@]+$/`: the string splits at its (unique) `@`
into a nonempty local part and a domain that contains a `.` with at
least one allowed character on each side, all characters outside the
whitespace/`@` classes. -/
def emailMatches (s : String) : Bool :=
  let cs := s.data
  let locl := cs.takeWhile (fun c => c != '@')
  let rest := cs.dropWhile (fun c => c != '@')
  match rest with
  | [] => false
  | _ :: domain =>
      !locl.isEmpty && locl.all emailChar &&
        (domain.all emailChar && ((domain.drop 1).dropLast.contains '.'))

/-- `emailRegex.test(contactData.email)` on a possibly-absent field: the
test applies only to string values (the validator dereferences the field
only after its string check). -/
def emailFieldMatches (o : Option JsonVal) : Bool :=
  match o with
  | some (.str s) => emailMatches s
  | _ => false

/-- Result of `validateStepData`: `{ valid: boolean; error?: string }`. -/
structure VResult where
  valid : Bool
  error : Option String := none
  deriving DecidableEq, Repr

/-- `{ valid: false, error }`. -/
def vErr (e : String) : VResult := ⟨false, some e⟩

/-- `{ valid: true }`. -/
def vOk : VResult := ⟨true, none⟩

/-- `!stepData || typeof stepData !== 'object'`, the generic object-shape
check that each branch of `validateStepData` performs first. -/
def notAnObject (stepData : JsonVal) : Bool :=
  stepData.falsy || !stepData.typeofObject

/-- `validateStepData` of the DB-backed case-progress route: per-step
required-field validation with a generic object-shape fallback for
unknown steps.  Checks are performed in the source order, returning the
first failing check's error string. -/
def validateStepData (currentStep : String) (stepData : JsonVal) : VResult :=
  if currentStep = "hospital" then
    if notAnObject stepData then vErr "stepData must be an object"
    else if !(truthyOpt (stepData.get "hospitalName") &&
              isStringField (stepData.get "hospitalName")) then
      vErr "hospitalName is required and must be a string"
    else vOk
  else if currentStep = "billType" then
    if notAnObject stepData then vErr "stepData must be an object"
    else if !(truthyOpt (stepData.get "billType") &&
              isStringField (stepData.get "billType")) then
      vErr "billType is required and must be a string"
    else vOk
  else if currentStep = "balance" then
    if notAnObject stepData then vErr "stepData must be an object"
    else if !isNumberField (stepData.get "balanceAmount") then
      vErr "balanceAmount is required and must be a number"
    else if (stepData.get "inCollections").isSome &&
            !isBooleanField (stepData.get "inCollections") then
      vErr "inCollections must be a boolean if provided"
    else vOk
  else if currentStep = "insurance" then
    if notAnObject stepData then vErr "stepData must be an object"
    else if !(truthyOpt (stepData.get "insuranceStatus") &&
              isStringField (stepData.get "insuranceStatus")) then
      vErr "insuranceStatus is required and must be a string"
    else vOk
  else if currentStep = "contact" then
    if notAnObject stepData then vErr "stepData must be an object"
    else if (stepData.get "email").isSome &&
            !isStringField (stepData.get "email") then
      vErr "email must be a string if provided"
    else if (stepData.get "email").isSome &&
            truthyOpt (stepData.get "email") &&
            !emailFieldMatches (stepData.get "email") then
      vErr "email must be a valid email address"
    else if !(truthyOpt (stepData.get "phone") &&
              isStringField (stepData.get "phone")) then
      vErr "phone is required and must be a string"
    else if (stepData.get "agreedToTerms").isSome &&
            !isBooleanField (stepData.get "agreedToTerms") then
      vErr "agreedToTerms must be a boolean if provided"
    else vOk
  else
    if notAnObject stepData then vErr "stepData must be an object"
    else vOk

/-- The `'contact'` branch of `validateStepData` in the legacy
(sheets-only) `case-progress` route: it requires a nonempty string
`email` matching the email pattern, checks `agreedToTerms` when present,
and performs no check on `phone` at all. -/
def validateContactLegacy (stepData : JsonVal) : VResult :=
  if notAnObject stepData then vErr "stepData must be an object"
  else if !(truthyOpt (stepData.get "email") &&
            isStringField (stepData.get "email")) then
    vErr "email is required and must be a string"
  else if !emailFieldMatches (stepData.get "email") then
    vErr "email must be a valid email address"
  else if (stepData.get "agreedToTerms").isSome &&
          !isBooleanField (stepData.get "agreedToTerms") then
    vErr "agreedToTerms must be a boolean if provided"
  else vOk

/-! ## Progress Store model

The Prisma transaction of the DB-backed route: insert a
`CaseProgressEvent` row (swallowing the `P2002` unique-constraint
violation on `submissionId`), then read and upsert the `Case` row.
Timestamps (`receivedAt`, `createdAt`, `updatedAt`) are not modelled: no
route logic reads them. -/

/-- One row of `case_progress_events`. -/
structure EventRow where
  submissionId : String
  caseId : String
  stepKey : String
  stepVersion : Nat := 1
  payload : JsonVal
  source : Option String := some "base44"
  userAgent : Option String := none
  ip : Option String := none
  deriving DecidableEq, Repr

/-- One row of `cases`.  The denormalized scalar columns are nullable
(`Option`); `progress` is a JSONB column. -/
structure CaseRow where
  caseId : String
  currentStep : String
  progress : JsonVal
  contactEmail : Option String := none
  contactPhone : Option String := none
  hospitalName : Option String := none
  balanceAmount : Option Int := none
  inCollections : Option Bool := none
  deriving DecidableEq, Repr

/-- The database: the append-only event log and the per-case table. -/
structure DB where
  events : List EventRow
  cases : List CaseRow
  deriving DecidableEq, Repr

/-- `tx.case.findUnique({ where: { caseId } })`. -/
def DB.findCase (db : DB) (caseId : String) : Option CaseRow :=
  db.cases.find? (fun r => r.caseId = caseId)

/-- Does an event row with this `submissionId` already exist (the
condition under which the insert raises `P2002`)? -/
def DB.hasSubmission (db : DB) (submissionId : String) : Bool :=
  db.events.any (fun e => e.submissionId = submissionId)

/-- `existingCase?.progress && typeof existingCase.progress === 'object'
? (existingCase.progress as Record<string, unknown>) : {}` — the guard
the route applies before spreading the stored `progress` JSONB.  (A
stored non-object array would be spread into an object with index keys
in JavaScript; this subsystem only ever stores objects, and the model
maps every non-object to the empty object.) -/
def progressFields : Option CaseRow → JFields
  | some r =>
      match r.progress with
      | .obj fs => fs
      | _ => .nil
  | none => .nil

/-- The `updateData` record built by the route: `currentStep` and
`progress` always, plus the denormalized columns the current step
touches.  An outer `none` is TypeScript `undefined` (field left out of
the update); an inner `none` is SQL `NULL`. -/
structure UpdateData where
  currentStep : String
  progress : JsonVal
  contactEmail : Option (Option String) := none
  contactPhone : Option (Option String) := none
  hospitalName : Option (Option String) := none
  balanceAmount : Option (Option Int) := none
  inCollections : Option (Option Bool) := none
  deriving DecidableEq, Repr

/-- `contactData.email || null`: an empty string becomes `NULL`.  Called
only after validation has established the field is a string. -/
def emailColumn : Option JsonVal → Option String
  | some (.str s) => if s = "" then none else some s
  | _ => none

/-- A payload field written verbatim into a string column
(`contactData.phone`, `hospitalData.hospitalName`).  Called only after
the route has established the field is a truthy string. -/
def strColumn : Option JsonVal → Option String
  | some (.str s) => some s
  | _ => none

/-- The `switch (currentStep)` of the route that fills the denormalized
columns of `updateData` from the step payload: `contact` sets
`contactEmail` (when present) and `contactPhone`; `hospital` sets
`hospitalName` (when truthy); `balance` sets `balanceAmount` and
`inCollections` (when present); every other step leaves all denormalized
columns undefined. -/
def mkUpdateData (currentStep : String) (payload : JsonVal) : UpdateData :=
  let base : UpdateData := { currentStep := currentStep, progress := .null }
  if currentStep = "contact" then
    let withEmail :=
      if (payload.get "email").isSome then
        { base with contactEmail := some (emailColumn (payload.get "email")) }
      else base
    { withEmail with contactPhone := some (strColumn (payload.get "phone")) }
  else if currentStep = "hospital" then
    if truthyOpt (payload.get "hospitalName") then
      { base with hospitalName := some (strColumn (payload.get "hospitalName")) }
    else base
  else if currentStep = "balance" then
    let withAmount :=
      match payload.get "balanceAmount" with
      | some (.num n) => { base with balanceAmount := some (some n) }
      | _ => base
    match payload.get "inCollections" with
    | some (.bool b) => { withAmount with inCollections := some (some b) }
    | _ => withAmount
  else base

/-- The `update` branch of `tx.case.upsert`: fields of `updateData` that
are `undefined` leave the stored column value untouched. -/
def applyUpdate (row : CaseRow) (u : UpdateData) (newProgress : JsonVal) : CaseRow :=
  { row with
    currentStep := u.currentStep
    progress := newProgress
    contactEmail := u.contactEmail.getD row.contactEmail
    contactPhone := u.contactPhone.getD row.contactPhone
    hospitalName := u.hospitalName.getD row.hospitalName
    balanceAmount := u.balanceAmount.getD row.balanceAmount
    inCollections := u.inCollections.getD row.inCollections }

/-- The `create` branch of `tx.case.upsert`: `createData` copies exactly
the defined fields of `updateData`; columns left undefined default to
`NULL`. -/
def mkCreateData (caseId : String) (u : UpdateData) (newProgress : JsonVal) : CaseRow :=
  { caseId := caseId
    currentStep := u.currentStep
    progress := newProgress
    contactEmail := u.contactEmail.getD none
    contactPhone := u.contactPhone.getD none
    hospitalName := u.hospitalName.getD none
    balanceAmount := u.balanceAmount.getD none
    inCollections := u.inCollections.getD none }

/-- Replace the `Case` row with the matching `caseId` (the row update of
`tx.case.upsert` on an existing row). -/
def DB.replaceCase (db : DB) (caseId : String) (row : CaseRow) : DB :=
  { db with cases := db.cases.map (fun r => if r.caseId = caseId then row else r) }

/-- Step 1 of the route's `prisma.$transaction`:
`tx.caseProgressEvent.create`, with the `P2002` unique-constraint
violation on `submissionId` swallowed (the event row is simply not
inserted again — note the route then still proceeds to the upsert). -/
def insertEvent (db : DB) (submissionId caseId currentStep : String)
    (payload : JsonVal) (userAgent ip : Option String) : DB :=
  if db.hasSubmission submissionId then db
  else
    { db with
      events := db.events ++
        [{ submissionId := submissionId, caseId := caseId,
           stepKey := currentStep, payload := payload,
           userAgent := userAgent, ip := ip }] }

/-- Step 2 of the route's `prisma.$transaction`: read the `Case` row,
merge the step payload into its `progress` under the step key (shallow
per-key replace), build `updateData` / `createData`, and
`tx.case.upsert`. -/
def upsertCase (db : DB) (caseId currentStep : String) (payload : JsonVal) : DB :=
  let existingCase := db.findCase caseId
  let existingProgress := progressFields existingCase
  let updatedProgress : JsonVal := .obj (existingProgress.set currentStep payload)
  let u := mkUpdateData currentStep payload
  match existingCase with
  | some row => db.replaceCase caseId (applyUpdate row u updatedProgress)
  | none => { db with cases := db.cases ++ [mkCreateData caseId u updatedProgress] }

/-- The body of the route's `prisma.$transaction`: the event insert
followed by the case upsert. -/
def applyTx (db : DB) (submissionId caseId currentStep : String)
    (payload : JsonVal) (userAgent ip : Option String) : DB :=
  upsertCase (insertEvent db submissionId caseId currentStep payload userAgent ip)
    caseId currentStep payload

/-! ## Case Progress Service (orchestration)

`handleCaseProgress` of the DB-backed route, as a pure function.  The
environmental inputs of one request are explicit parameters: the parsed
JSON body, the UUID the server would generate (`genId`), the request geo
city, the observability headers, the outcome of the database transaction
(`dbFault = some e` models the transaction throwing `e`, in which case
Prisma rolls the whole transaction back), and the outcome of the Google
Sheets call (`sheetsFault = some m` models `saveCaseProgress` throwing an
exception whose `message` property is `m`). -/

/-- An exception thrown by the Prisma transaction: a
`PrismaClientKnownRequestError` with its `code` and `message`, some other
`Error` with a `message`, or a thrown non-`Error` value. -/
inductive DbError : Type where
  | known (code : String) (msg : String)
  | genericError (msg : String)
  | nonError
  deriving DecidableEq, Repr

/-- The retryability classification of the route: `P1001` (connection
error), `P1008` (operation timed out) and `P1017` (server closed
connection) are retryable, everything else is not. -/
def DbError.isRetryable : DbError → Bool
  | .known code _ => code = "P1001" || code = "P1008" || code = "P1017"
  | _ => false

/-- `dbError instanceof Error ? dbError.message : 'Database error in
/api/case-progress'`. -/
def DbError.message : DbError → String
  | .known _ msg => msg
  | .genericError msg => msg
  | .nonError => "Database error in /api/case-progress"

/-- The JSON body of an HTTP response from the route, together with its
status code.  Absent optional fields are `none`. -/
structure ApiResponse where
  status : Nat
  success : Option Bool := none
  error : Option String := none
  retryable : Option Bool := none
  caseId : Option String := none
  currentStep : Option String := none
  submissionId : Option String := none
  warning : Option String := none
  deriving DecidableEq, Repr

/-- Result of one request: the response, the database state after the
request, and how many times the sheet mirror was invoked. -/
structure HandlerResult where
  resp : ApiResponse
  db : DB
  mirrorCalls : Nat
  deriving DecidableEq, Repr

/-- A 400 rejection: `{ success: false, error }`. -/
def badRequest (e : String) : ApiResponse :=
  { status := 400, success := some false, error := some e }

/-- `err?.message || 'Failed to save to Google Sheets. Check server logs
for details.'` — the warning string built from a sheet-mirror exception
whose `message` property is `m` (`none` when absent). -/
def sheetsWarningOf (m : Option String) : String :=
  match m with
  | some s => if s = "" then "Failed to save to Google Sheets. Check server logs for details." else s
  | none => "Failed to save to Google Sheets. Check server logs for details."

/-- `{...[i0, i1, ...]}`: spreading an array into an object yields
index-keyed fields. -/
def arrayFields : JItems → Nat → JFields
  | .nil, _ => .nil
  | .cons v rest, i => .cons (toString i) v (arrayFields rest (i + 1))

/-- `{ ...body.stepData }`: the shallow copy the route takes before the
optional city injection.  By this point the structural check has
established `stepData` is a truthy `'object'`, so only the object and
array cases are reachable. -/
def spreadCopy : JsonVal → JFields
  | .obj fs => fs
  | .arr items => arrayFields items 0
  | _ => .nil

/-- The hospital-step geo-city injection: when the step is `'hospital'`
and the copied payload's `city` is falsy or absent, and the request geo
has a city, set `city` on the copy. -/
def addCity (currentStep : String) (fs : JFields) (geoCity : Option String) : JFields :=
  if currentStep = "hospital" && !truthyOpt (fs.get "city") then
    match geoCity with
    | some c => fs.set "city" (.str c)
    | none => fs
  else fs

/-- `body.submissionId || generateUUID()`.  (A truthy non-string
`submissionId` would be forwarded to Prisma and rejected by the driver;
that out-of-contract shape is modelled as a generated id.) -/
def submissionIdOf (field : Option JsonVal) (genId : String) : String :=
  match field with
  | some (.str s) => if s = "" then genId else s
  | _ => genId

/-- The string content of a field access already known to be a string. -/
def strOf : Option JsonVal → String
  | some (.str s) => s
  | _ => ""

/-- `handleCaseProgress` of the DB-backed route: structural validation,
step validation, the Prisma transaction (event insert + case upsert),
then the best-effort sheet mirror, then the response. -/
def handleCaseProgress (db : DB) (body : JsonVal) (genId : String)
    (geoCity : Option String) (userAgent ip : Option String)
    (dbFault : Option DbError) (sheetsFault : Option (Option String)) :
    HandlerResult :=
  -- `body.caseId` on the JSON value `null` throws a TypeError, caught by
  -- the route's outer catch-all.
  if body = .null then
    { resp := { status := 500, success := some false,
                error := some "Cannot read properties of null (reading 'caseId')",
                retryable := some false },
      db := db, mirrorCalls := 0 }
  else if !(truthyOpt (body.get "caseId") && isStringField (body.get "caseId")) then
    { resp := badRequest "caseId is required and must be a string", db := db, mirrorCalls := 0 }
  else if !(truthyOpt (body.get "currentStep") && isStringField (body.get "currentStep")) then
    { resp := badRequest "currentStep is required and must be a string", db := db, mirrorCalls := 0 }
  else if (match body.get "stepData" with
           | some v => notAnObject v
           | none => true) then
    { resp := badRequest "stepData is required and must be an object", db := db, mirrorCalls := 0 }
  else
    let caseId := strOf (body.get "caseId")
    let currentStep := strOf (body.get "currentStep")
    let stepData := (body.get "stepData").getD .null
    let validation := validateStepData currentStep stepData
    if !validation.valid then
      { resp := badRequest (validation.error.getD ""), db := db, mirrorCalls := 0 }
    else
      let submissionId := submissionIdOf (body.get "submissionId") genId
      let stepDataWithCity : JsonVal := .obj (addCity currentStep (spreadCopy stepData) geoCity)
      match dbFault with
      | some e =>
          { resp := { status := if e.isRetryable then 503 else 500,
                      success := some false,
                      error := some e.message,
                      retryable := some e.isRetryable },
            db := db, mirrorCalls := 0 }
      | none =>
          let db' := applyTx db submissionId caseId currentStep stepDataWithCity userAgent ip
          { resp := { status := 200, success := some true,
                      caseId := some caseId, currentStep := some currentStep,
                      submissionId := some submissionId,
                      warning := sheetsFault.map sheetsWarningOf },
            db := db', mirrorCalls := 1 }

/-! ## Hospital autocomplete (`GET /api/hospitals`)

The route trims and lowercases the `query` parameter, returns `[]` for
queries shorter than 2 characters, and otherwise returns the first 7
hospitals whose name, city or state contains the query as a substring.
Character classes are modelled with Lean's ASCII `Char.isWhitespace` /
`Char.toLower` (the hospital dataset and queries are ASCII). -/

/-- One entry of the imported `hospitals-us.json` dataset. -/
structure Hospital where
  id : String
  name : String
  city : String
  state : String
  deriving DecidableEq, Repr

/-- One element of the response payload, with
`subtitle = city + ", " + state`. -/
structure HospitalSuggestion where
  id : String
  name : String
  subtitle : String
  deriving DecidableEq, Repr

/-- `String.prototype.trim()` on the character list. -/
def trimChars (cs : List Char) : List Char :=
  ((cs.dropWhile Char.isWhitespace).reverse.dropWhile Char.isWhitespace).reverse

/-- `String.prototype.toLowerCase()` on the character list. -/
def lowerChars (cs : List Char) : List Char := cs.map Char.toLower

/-- Does `hay` start with `nd`? -/
def startsWithChars : List Char → List Char → Bool
  | _, [] => true
  | [], _ :: _ => false
  | a :: hay, b :: nd => a == b && startsWithChars hay nd

/-- `String.prototype.includes`: does `hay` contain `nd` as a contiguous
substring? -/
def includesChars (hay nd : List Char) : Bool :=
  match hay with
  | [] => startsWithChars [] nd
  | _ :: t => startsWithChars hay nd || includesChars t nd

/-- The filter predicate of the route: the lowercased name, city or state
contains the query. -/
def hospitalMatches (q : List Char) (h : Hospital) : Bool :=
  includesChars (lowerChars h.name.data) q ||
  includesChars (lowerChars h.city.data) q ||
  includesChars (lowerChars h.state.data) q

/-- The response mapping `(h) => ({ id, name, subtitle })`. -/
def toSuggestion (h : Hospital) : HospitalSuggestion :=
  { id := h.id, name := h.name, subtitle := h.city ++ ", " ++ h.state }

/-- `GET /api/hospitals?query=...`, parametrized by the hospital dataset:
trim and lowercase the query; empty result below 2 characters; otherwise
filter by substring match and keep the first 7. -/
def getHospitals (hospitals : List Hospital) (rawQuery : String) :
    List HospitalSuggestion :=
  let q := lowerChars (trimChars rawQuery.data)
  if q.length < 2 then []
  else ((hospitals.filter (hospitalMatches q)).take 7).map toSuggestion

/-! ## Bill token (`signBillToken` / `verifyBillToken`)

The token module builds an HS256 JWT by hand: base64url of the fixed
header JSON, base64url of `JSON.stringify({ caseId, iat })`, and a
base64url HMAC-SHA-256 signature over `header + "." + payload`, joined
with dots.  The byte level is modelled concretely: strings become UTF-8
byte lists, SHA-256 and HMAC are implemented in full, base64url as in
Node (no padding).  `Date.now()` is environmental, so `signBillToken`
takes the `iat` value as a parameter.  `JSON.parse` as used by
`verifyBillToken` (a cast to `BillTokenPayload`) is modelled by a parser
for the exact object shape the module produces; lone-surrogate `\u`
escape pairs are not recombined, which the token payload never
produces. -/

/-- `process.env.BILL_TOKEN_SECRET || 'dev-secret-change-me'` with the
environment variable unset. -/
def TOKEN_SECRET : String := "dev-secret-change-me"

/-- UTF-8 encoding of one Unicode scalar value. -/
def utf8EncodeChar (n : Nat) : List Nat :=
  if n < 0x80 then [n]
  else if n < 0x800 then [0xC0 + n / 0x40, 0x80 + n % 0x40]
  else if n < 0x10000 then
    [0xE0 + n / 0x1000, 0x80 + (n / 0x40) % 0x40, 0x80 + n % 0x40]
  else
    [0xF0 + n / 0x40000, 0x80 + (n / 0x1000) % 0x40,
     0x80 + (n / 0x40) % 0x40, 0x80 + n % 0x40]

/-- UTF-8 encoding of a character list (`Buffer.from(s)`). -/
def utf8EncodeChars (cs : List Char) : List Nat :=
  (cs.map (fun c => utf8EncodeChar c.toNat)).flatten

/-- UTF-8 encoding of a string. -/
def utf8Encode (s : String) : List Nat := utf8EncodeChars s.data

/-- Decode one UTF-8 sequence from the front of a byte list: the decoded
scalar value and the remaining bytes.  Ill-formed sequences (truncated,
overlong, surrogate, out of range) are rejected. -/
def utf8DecodeOne : List Nat → Option (Char × List Nat)
  | [] => none
  | b1 :: rest =>
    if b1 < 0x80 then some (Char.ofNat b1, rest)
    else if b1 < 0xC2 then none
    else if b1 < 0xE0 then
      match rest with
      | b2 :: rest2 =>
        if 0x80 ≤ b2 ∧ b2 < 0xC0 then
          some (Char.ofNat ((b1 - 0xC0) * 0x40 + (b2 - 0x80)), rest2)
        else none
      | [] => none
    else if b1 < 0xF0 then
      match rest with
      | b2 :: b3 :: rest2 =>
        if (0x80 ≤ b2 ∧ b2 < 0xC0) ∧ (0x80 ≤ b3 ∧ b3 < 0xC0) then
          let n := (b1 - 0xE0) * 0x1000 + (b2 - 0x80) * 0x40 + (b3 - 0x80)
          if n < 0x800 ∨ (0xD800 ≤ n ∧ n < 0xE000) then none
          else some (Char.ofNat n, rest2)
        else none
      | _ => none
    else if b1 < 0xF5 then
      match rest with
      | b2 :: b3 :: b4 :: rest2 =>
        if (0x80 ≤ b2 ∧ b2 < 0xC0) ∧ (0x80 ≤ b3 ∧ b3 < 0xC0) ∧
           (0x80 ≤ b4 ∧ b4 < 0xC0) then
          let n := (b1 - 0xF0) * 0x40000 + (b2 - 0x80) * 0x1000 +
                   (b3 - 0x80) * 0x40 + (b4 - 0x80)
          if n < 0x10000 ∨ 0x110000 ≤ n then none
          else some (Char.ofNat n, rest2)
        else none
      | _ => none
    else none

/-- The decode loop, with a fuel bound on the number of decoded
characters (one UTF-8 sequence consumes at least one byte, so the byte
count is always enough fuel). -/
def utf8DecodeLoop : Nat → List Nat → Option (List Char)
  | _, [] => some []
  | 0, _ :: _ => none
  | fuel + 1, b :: rest =>
    match utf8DecodeOne (b :: rest) with
    | some (c, rest2) => (utf8DecodeLoop fuel rest2).map (fun cs => c :: cs)
    | none => none

/-- UTF-8 decoding of a byte list (`buffer.toString('utf8')` on
well-formed input; ill-formed sequences are rejected rather than
replaced). -/
def utf8DecodeChars (l : List Nat) : Option (List Char) :=
  utf8DecodeLoop l.length l

/-- Truncation to 32 bits. -/
def mask32 (x : Nat) : Nat := x % 4294967296

/-- 32-bit rotate right. -/
def rotr32 (n x : Nat) : Nat := mask32 (x >>> n ||| x <<< (32 - n))

/-- The SHA-256 round constants. -/
def sha256K : List Nat := [
  1116352408, 1899447441, 3049323471, 3921009573,
  961987163, 1508970993, 2453635748, 2870763221,
  3624381080, 310598401, 607225278, 1426881987,
  1925078388, 2162078206, 2614888103, 3248222580,
  3835390401, 4022224774, 264347078, 604807628,
  770255983, 1249150122, 1555081692, 1996064986,
  2554220882, 2821834349, 2952996808, 3210313671,
  3336571891, 3584528711, 113926993, 338241895,
  666307205, 773529912, 1294757372, 1396182291,
  1695183700, 1986661051, 2177026350, 2456956037,
  2730485921, 2820302411, 3259730800, 3345764771,
  3516065817, 3600352804, 4094571909, 275423344,
  430227734, 506948616, 659060556, 883997877,
  958139571, 1322822218, 1537002063, 1747873779,
  1955562222, 2024104815, 2227730452, 2361852424,
  2428436474, 2756734187, 3204031479, 3329325298]

/-- The SHA-256 initial hash state. -/
def sha256H0 : List Nat := [
  1779033703, 3144134277, 1013904242, 2773480762,
  1359893119, 2600822924, 528734635, 1541459225]

/-- Big-endian 32-bit words from bytes. -/
def bytesToWords : List Nat → List Nat
  | b1 :: b2 :: b3 :: b4 :: rest =>
      (b1 * 0x1000000 + b2 * 0x10000 + b3 * 0x100 + b4) :: bytesToWords rest
  | _ => []

/-- Big-endian bytes of a 32-bit word. -/
def wordBytes (w : Nat) : List Nat :=
  [w / 0x1000000 % 0x100, w / 0x10000 % 0x100, w / 0x100 % 0x100, w % 0x100]

/-- Big-endian 8-byte encoding of the 64-bit message bit length. -/
def lenBytes (n : Nat) : List Nat :=
  [n / 0x100000000000000 % 0x100, n / 0x1000000000000 % 0x100,
   n / 0x10000000000 % 0x100, n / 0x100000000 % 0x100,
   n / 0x1000000 % 0x100, n / 0x10000 % 0x100, n / 0x100 % 0x100, n % 0x100]

/-- SHA-256 padding: `0x80`, zeros to 56 mod 64, 8-byte bit length. -/
def sha256Pad (msg : List Nat) : List Nat :=
  let z := (56 + 64 - (msg.length + 1) % 64) % 64
  msg ++ 0x80 :: List.replicate z 0 ++ lenBytes (msg.length * 8)

/-- 64-byte blocks of the padded message. -/
def sha256Blocks (l : List Nat) : List (List Nat) :=
  if l = [] then []
  else l.take 64 :: sha256Blocks (l.drop 64)
termination_by l.length
decreasing_by simp [List.length_drop]; cases l <;> simp_all

/-- One step of the message-schedule extension, on the reversed schedule
list (most recent word first). -/
def scheduleStep (rw : List Nat) : List Nat :=
  let g := fun i => rw.getD i 0
  let s0 := rotr32 7 (g 14) ^^^ rotr32 18 (g 14) ^^^ (g 14 >>> 3)
  let s1 := rotr32 17 (g 1) ^^^ rotr32 19 (g 1) ^^^ (g 1 >>> 10)
  mask32 (g 15 + s0 + g 6 + s1) :: rw

/-- The 64-word message schedule of one block. -/
def sha256Schedule (block : List Nat) : List Nat :=
  ((List.range 48).foldl (fun rw _ => scheduleStep rw)
    (bytesToWords block).reverse).reverse

/-- One SHA-256 compression round. -/
def sha256Round (st : List Nat) (kw : Nat × Nat) : List Nat :=
  match st with
  | [va, vb, vc, vd, ve, vf, vg, vh] =>
    let s1 := rotr32 6 ve ^^^ rotr32 11 ve ^^^ rotr32 25 ve
    let ch := (ve &&& vf) ^^^ ((ve ^^^ 0xFFFFFFFF) &&& vg)
    let t1 := mask32 (vh + s1 + ch + kw.1 + kw.2)
    let s0 := rotr32 2 va ^^^ rotr32 13 va ^^^ rotr32 22 va
    let mj := (va &&& vb) ^^^ (va &&& vc) ^^^ (vb &&& vc)
    let t2 := mask32 (s0 + mj)
    [mask32 (t1 + t2), va, vb, vc, mask32 (vd + t1), ve, vf, vg]
  | _ => st

/-- Process one 64-byte block into the running hash state. -/
def sha256Block (hst block : List Nat) : List Nat :=
  let w := sha256Schedule block
  let st := (sha256K.zip w).foldl sha256Round hst
  (hst.zip st).map (fun p => mask32 (p.1 + p.2))

/-- SHA-256 of a byte list, as 32 bytes. -/
def sha256 (msg : List Nat) : List Nat :=
  ((sha256Blocks (sha256Pad msg)).foldl sha256Block sha256H0).map wordBytes |>.flatten

/-- HMAC-SHA-256 (`crypto.createHmac('sha256', key)`), over byte lists. -/
def hmacSha256 (key msg : List Nat) : List Nat :=
  let k0 := if 64 < key.length then sha256 key else key
  let k1 := k0 ++ List.replicate (64 - k0.length) 0
  sha256 ((k1.map (fun b => b ^^^ 0x5c)) ++
          sha256 ((k1.map (fun b => b ^^^ 0x36)) ++ msg))

/-- The base64url alphabet, by index. -/
def b64Alpha : List Char :=
  "ABCDEFGHIJKLMNOPQRSTUVWXYZabcdefghijklmnopqrstuvwxyz0123456789-_".data

/-- The base64url digit for a 6-bit index. -/
def b64Char (i : Nat) : Char := b64Alpha.getD i 'A'

/-- The 6-bit index of a base64url digit. -/
def b64Index (c : Char) : Option Nat := b64Alpha.findIdx? (· = c)

/-- Node's `base64url` encoding of a byte list: 3-byte groups become 4
digits, trailing groups 2 or 3 digits, no padding. -/
def b64Encode : List Nat → List Char
  | [] => []
  | [b1] => [b64Char (b1 / 4), b64Char (b1 % 4 * 16)]
  | [b1, b2] =>
      [b64Char (b1 / 4), b64Char (b1 % 4 * 16 + b2 / 16), b64Char (b2 % 16 * 4)]
  | b1 :: b2 :: b3 :: rest =>
      b64Char (b1 / 4) :: b64Char (b1 % 4 * 16 + b2 / 16) ::
      b64Char (b2 % 16 * 4 + b3 / 64) :: b64Char (b3 % 64) :: b64Encode rest

/-- `Buffer.from(s, 'base64url')` on well-formed input. -/
def b64Decode : List Char → Option (List Nat)
  | [] => some []
  | [_] => none
  | [c1, c2] =>
    match b64Index c1, b64Index c2 with
    | some i1, some i2 => some [i1 * 4 + i2 / 16]
    | _, _ => none
  | [c1, c2, c3] =>
    match b64Index c1, b64Index c2, b64Index c3 with
    | some i1, some i2, some i3 =>
        some [i1 * 4 + i2 / 16, i2 % 16 * 16 + i3 / 4]
    | _, _, _ => none
  | c1 :: c2 :: c3 :: c4 :: rest =>
    match b64Index c1, b64Index c2, b64Index c3, b64Index c4, b64Decode rest with
    | some i1, some i2, some i3, some i4, some bs =>
        some ((i1 * 4 + i2 / 16) :: (i2 % 16 * 16 + i3 / 4) :: (i3 % 4 * 64 + i4) :: bs)
    | _, _, _, _, _ => none

/-- `token.split('.')`. -/
def splitDots (cs : List Char) : List (List Char) :=
  match cs with
  | [] => [[]]
  | c :: rest =>
    let r := splitDots rest
    if c = '.' then [] :: r
    else
      match r with
      | h :: t => (c :: h) :: t
      | [] => [[c]]

/-- The decimal digit character for `n < 10`. -/
def digitChar (n : Nat) : Char := Char.ofNat (48 + n)

/-- Decimal digits of a natural number (JavaScript's number-to-string
conversion for the non-negative integers that `Date.now()` produces). -/
def natDigits (n : Nat) : List Char :=
  if n < 10 then [digitChar n] else natDigits (n / 10) ++ [digitChar (n % 10)]

/-- Value of a decimal digit string. -/
def digitsVal (cs : List Char) : Nat :=
  cs.foldl (fun a c => a * 10 + (c.toNat - 48)) 0

/-- The lowercase hex digit for `n < 16`. -/
def hexDigit (n : Nat) : Char :=
  if n < 10 then Char.ofNat (48 + n) else Char.ofNat (87 + n)

/-- Value of a hex digit character (either case). -/
def hexVal (c : Char) : Option Nat :=
  if '0' ≤ c ∧ c ≤ '9' then some (c.toNat - 48)
  else if 'a' ≤ c ∧ c ≤ 'f' then some (c.toNat - 87)
  else if 'A' ≤ c ∧ c ≤ 'F' then some (c.toNat - 55)
  else none

/-- `JSON.stringify` escaping of one string character. -/
def jsonEscapeChar (c : Char) : List Char :=
  if c = '"' then ['\\', '"']
  else if c = '\\' then ['\\', '\\']
  else if c = '\x08' then ['\\', 'b']
  else if c = '\x09' then ['\\', 't']
  else if c = '\x0a' then ['\\', 'n']
  else if c = '\x0c' then ['\\', 'f']
  else if c = '\x0d' then ['\\', 'r']
  else if c.toNat < 32 then
    '\\' :: 'u' :: '0' :: '0' :: hexDigit (c.toNat / 16) :: [hexDigit (c.toNat % 16)]
  else [c]

/-- `JSON.stringify` escaping of a string body. -/
def escapeChars (cs : List Char) : List Char := (cs.map jsonEscapeChar).flatten

/-- `JSON.stringify({ caseId, iat })`. -/
def stringifyPayload (caseId : String) (iat : Nat) : List Char :=
  '\x7b' :: "\"caseId\":\"".data ++ escapeChars caseId.data ++
    "\",\"iat\":".data ++ natDigits iat ++ ['\x7d']

/-- Consume an exact literal. -/
def expectPrefix : List Char → List Char → Option (List Char)
  | [], cs => some cs
  | _ :: _, [] => none
  | p :: ps, c :: cs => if c = p then expectPrefix ps cs else none

/-- Decode one escape sequence or literal character of a JSON string
body (the input is known not to start with the closing quote).
Surrogate `\u` escape pairs are not recombined; the token payload never
produces them. -/
def unescapeOne : List Char → Option (Char × List Char)
  | [] => none
  | c :: rest =>
    if c = '\\' then
      match rest with
      | [] => none
      | e :: rest2 =>
        if e = '"' then some ('"', rest2)
        else if e = '\\' then some ('\\', rest2)
        else if e = '/' then some ('/', rest2)
        else if e = 'b' then some ('\x08', rest2)
        else if e = 't' then some ('\x09', rest2)
        else if e = 'n' then some ('\x0a', rest2)
        else if e = 'f' then some ('\x0c', rest2)
        else if e = 'r' then some ('\x0d', rest2)
        else if e = 'u' then
          match rest2 with
          | h1 :: h2 :: h3 :: h4 :: rest3 =>
            match hexVal h1, hexVal h2, hexVal h3, hexVal h4 with
            | some v1, some v2, some v3, some v4 =>
                some (Char.ofNat (((v1 * 16 + v2) * 16 + v3) * 16 + v4), rest3)
            | _, _, _, _ => none
          | _ => none
        else none
    else if c.toNat < 32 then none
    else some (c, rest)

/-- The string-body parse loop: stop at the closing quote, otherwise
decode one character and recurse (fuel bounds the number of decoded
characters; every character consumes at least one input character). -/
def parseStringBody : Nat → List Char → Option (List Char × List Char)
  | _, [] => none
  | fuel, c :: rest =>
    if c = '"' then some ([], rest)
    else
      match fuel with
      | 0 => none
      | f + 1 =>
        match unescapeOne (c :: rest) with
        | some (ch, rest2) =>
            (parseStringBody f rest2).map (fun p => (ch :: p.1, p.2))
        | none => none

/-- Parse a JSON string body up to and including its closing quote,
returning the unescaped content and the remaining input. -/
def parseJsonString (l : List Char) : Option (List Char × List Char) :=
  parseStringBody l.length l

/-- `JSON.parse(s) as BillTokenPayload` for the exact shape the module
writes: an object with a string `caseId` and an integer `iat`, in that
order.  Returns the decoded `caseId` characters and the `iat` value. -/
def parsePayload (cs : List Char) : Option (List Char × Nat) :=
  match cs with
  | [] => none
  | c :: rest =>
    if c = '\x7b' then
      match expectPrefix "\"caseId\":\"".data rest with
      | some r1 =>
        match parseJsonString r1 with
        | some (name, r2) =>
          match expectPrefix ",\"iat\":".data r2 with
          | some r3 =>
            let digits := r3.takeWhile Char.isDigit
            let r4 := r3.dropWhile Char.isDigit
            if digits = [] then none
            else
              match r4 with
              | [d] => if d = '\x7d' then some (name, digitsVal digits) else none
              | _ => none
          | none => none
        | none => none
      | none => none
    else none

/-- The decoded token payload `{ caseId, iat }`. -/
structure BillTokenPayload where
  caseId : String
  iat : Nat
  deriving DecidableEq, Repr

/-- `signBillToken(caseId)`: base64url header, base64url
`JSON.stringify({ caseId, iat })`, and a base64url HMAC-SHA-256
signature over `header + "." + payload` under `TOKEN_SECRET`.  `iat`
(`Math.floor(Date.now() / 1000)`) is environmental and passed in. -/
def signBillToken (caseId : String) (iat : Nat) : String :=
  let header := b64Encode (utf8Encode "\x7b\"alg\":\"HS256\",\"typ\":\"JWT\"\x7d")
  let payloadStr := b64Encode (utf8EncodeChars (stringifyPayload caseId iat))
  let data := header ++ '.' :: payloadStr
  let signature := b64Encode (hmacSha256 (utf8Encode TOKEN_SECRET) (utf8EncodeChars data))
  String.mk (data ++ '.' :: signature)

/-- `verifyBillToken(token)`: split on dots, require exactly three
parts, recompute and compare the HMAC, then decode and parse the
payload.  Thrown errors are modelled as `Except.error`. -/
def verifyBillToken (token : String) : Except String BillTokenPayload :=
  match splitDots token.data with
  | [header, payload, signature] =>
    let data := header ++ '.' :: payload
    let expected := b64Encode (hmacSha256 (utf8Encode TOKEN_SECRET) (utf8EncodeChars data))
    if signature = expected then
      match b64Decode payload with
      | some bytes =>
        match utf8DecodeChars bytes with
        | some cs =>
          match parsePayload cs with
          | some (cid, iat) => .ok { caseId := String.mk cid, iat := iat }
          | none => .error "Invalid token payload"
        | none => .error "Invalid token payload"
      | none => .error "Invalid token payload"
    else .error "Invalid token signature"
  | _ => .error "Invalid token format"

/-! ## Statement conveniences -/

/-- The `progress` map of the stored `Case` row for `caseId` (empty when
no row exists or the stored value is not an object). -/
def progressOf (db : DB) (caseId : String) : JFields :=
  progressFields (db.findCase caseId)

/-- A well-formed request body
`{ submissionId, caseId, currentStep, stepData }`. -/
def mkBody (sid caseId step : String) (payload : JsonVal) : JsonVal :=
  .obj (.cons "submissionId" (.str sid)
    (.cons "caseId" (.str caseId)
      (.cons "currentStep" (.str step)
        (.cons "stepData" payload .nil))))

/-- The first validation error for a request body, in the route's check
order: the three structural checks, then `validateStepData`.  `none`
when the request passes validation. -/
def requestValidationError (body : JsonVal) : Option String :=
  if !(truthyOpt (body.get "caseId") && isStringField (body.get "caseId")) then
    some "caseId is required and must be a string"
  else if !(truthyOpt (body.get "currentStep") && isStringField (body.get "currentStep")) then
    some "currentStep is required and must be a string"
  else if (match body.get "stepData" with
           | some v => notAnObject v
           | none => true) then
    some "stepData is required and must be an object"
  else
    (validateStepData (strOf (body.get "currentStep"))
      ((body.get "stepData").getD .null)).error

/-- A one-field object payload `{ hospitalName: name }`. -/
def hospitalPayload (name : String) : JsonVal :=
  .obj (.cons "hospitalName" (.str name) .nil)

/-- A store that already recorded submission `"s1"`: one `"hospital"`
event for case `"c1"` with payload `{ hospitalName: "General" }`, and
the corresponding `Case` row. -/
def dupDb : DB :=
  { events := [{ submissionId := "s1", caseId := "c1", stepKey := "hospital",
                 payload := hospitalPayload "General" }],
    cases := [{ caseId := "c1", currentStep := "hospital",
                progress := .obj (.cons "hospital" (hospitalPayload "General") .nil),
                hospitalName := some "General" }] }

/-- A re-submission of `submissionId "s1"` carrying a different
`stepData` payload. -/
def dupBody : JsonVal := mkBody "s1" "c1" "hospital" (hospitalPayload "Other")


/-! ## Helper lemmas -/

theorem JFields.get_set : ∀ (fs : JFields) (key k : String) (v : JsonVal),
    (fs.set key v).get k = if k = key then some v else fs.get k
  | .nil, key, k, v => by
    simp only [JFields.set, JFields.get]
    by_cases h : k = key
    · simp [h]
    · simp [h, Ne.symm h]
  | .cons k' w rest, key, k, v => by
    simp only [JFields.set]
    by_cases h1 : k' = key
    · simp only [if_pos h1]
      subst h1
      simp only [JFields.get]
      by_cases h : k' = k
      · simp [h]
      · simp [h, Ne.symm h]
    · simp only [if_neg h1]
      simp only [JFields.get]
      by_cases h : k' = k
      · have hk : ¬ k = key := fun e => h1 (h.trans e)
        simp [h, hk]
      · simp [h, JFields.get_set rest key k v]

theorem JFields.set_get_self : ∀ (fs : JFields) (key : String) (v : JsonVal),
    fs.get key = some v → fs.set key v = fs
  | .nil, key, v => by simp [JFields.get]
  | .cons k' w rest, key, v => by
    intro h
    by_cases h1 : k' = key
    · subst h1
      simp [JFields.get] at h
      simp [JFields.set, h]
    · simp [JFields.get, h1] at h
      simp [JFields.set, h1, JFields.set_get_self rest key v h]

theorem addCity_geo_none (step : String) (fs : JFields) :
    addCity step fs none = fs := by
  unfold addCity
  split <;> rfl

theorem addCity_of_ne_hospital (step : String) (fs : JFields) (geo : Option String)
    (h : step ≠ "hospital") : addCity step fs geo = fs := by
  simp [addCity, h]

theorem insertEvent_findCase (db : DB) (sid cid step : String) (p : JsonVal)
    (ua ip : Option String) (c : String) :
    (insertEvent db sid cid step p ua ip).findCase c = db.findCase c := by
  unfold insertEvent
  split <;> rfl

/-- The `Case` row that one transaction leaves for its `caseId`. -/
def txCaseRow (db : DB) (cid step : String) (p : JsonVal) : CaseRow :=
  match db.findCase cid with
  | some row =>
      applyUpdate row (mkUpdateData step p)
        (.obj ((progressFields (some row)).set step p))
  | none =>
      mkCreateData cid (mkUpdateData step p)
        (.obj ((progressFields none).set step p))

theorem upsertCase_findCase (db : DB) (cid step : String) (p : JsonVal) :
    (upsertCase db cid step p).findCase cid = some (txCaseRow db cid step p) := by
  unfold upsertCase txCaseRow
  rcases hrow : db.findCase cid with _ | row
  · simp only [DB.findCase, DB.replaceCase] at hrow ⊢
    simp [List.find?_append, hrow, List.find?, mkCreateData]
  · have hcid : row.caseId = cid := by
      have := List.find?_some hrow
      simpa using this
    simp only [DB.findCase, DB.replaceCase] at hrow ⊢
    have hrep : (fun (r : CaseRow) => decide (r.caseId = cid)) ∘
        (fun r => if r.caseId = cid then applyUpdate row (mkUpdateData step p)
          (.obj ((progressFields (some row)).set step p)) else r) =
        fun r => decide (r.caseId = cid) := by
      funext r
      by_cases hr : r.caseId = cid <;> simp [hr, applyUpdate, hcid]
    simp only [List.find?_map, hrep, hrow, Option.map_some]
    simp [applyUpdate, hcid]

theorem applyTx_findCase (db : DB) (sid cid step : String) (p : JsonVal)
    (ua ip : Option String) :
    (applyTx db sid cid step p ua ip).findCase cid = some (txCaseRow db cid step p) := by
  unfold applyTx
  rw [upsertCase_findCase]
  unfold txCaseRow
  rw [insertEvent_findCase]

theorem progressOf_applyTx (db : DB) (sid cid step : String) (p : JsonVal)
    (ua ip : Option String) :
    progressOf (applyTx db sid cid step p ua ip) cid =
      (progressOf db cid).set step p := by
  unfold progressOf
  rw [applyTx_findCase]
  unfold txCaseRow
  rcases hrow : db.findCase cid with _ | row <;>
    simp [progressFields, applyUpdate, mkCreateData]

theorem applyTx_events_of_dup (db : DB) (sid cid step : String) (p : JsonVal)
    (ua ip : Option String) (h : db.hasSubmission sid = true) :
    (applyTx db sid cid step p ua ip).events = db.events := by
  unfold applyTx upsertCase insertEvent
  rw [if_pos h]
  rcases hrow : db.findCase cid with _ | row <;> simp [DB.replaceCase]

set_option maxHeartbeats 1000000 in
theorem validateStepData_valid_iff (step : String) (d : JsonVal) :
    (validateStepData step d).valid = true ↔ (validateStepData step d).error = none := by
  unfold validateStepData
  split_ifs <;> simp [vOk, vErr]

theorem handleCaseProgress_of_invalid (db : DB) (body : JsonVal) (genId : String)
    (geo ua ip : Option String) (dbFault : Option DbError) (sf : Option (Option String))
    (e : String) (hnn : body ≠ .null)
    (hfail : requestValidationError body = some e) :
    handleCaseProgress db body genId geo ua ip dbFault sf =
      { resp := badRequest e, db := db, mirrorCalls := 0 } := by
  have hv := validateStepData_valid_iff (strOf (body.get "currentStep"))
    ((body.get "stepData").getD .null)
  simp only [requestValidationError] at hfail
  simp only [handleCaseProgress]
  rw [if_neg hnn]
  split_ifs at hfail ⊢ <;> simp_all

theorem handleCaseProgress_of_valid (db : DB) (body : JsonVal) (genId : String)
    (geo ua ip : Option String) (dbFault : Option DbError) (sf : Option (Option String))
    (hnn : body ≠ .null) (hok : requestValidationError body = none) :
    handleCaseProgress db body genId geo ua ip dbFault sf =
      match dbFault with
      | some e =>
        { resp := { status := if e.isRetryable then 503 else 500, success := some false,
                    error := some e.message, retryable := some e.isRetryable },
          db := db, mirrorCalls := 0 }
      | none =>
        { resp := { status := 200, success := some true,
                    caseId := some (strOf (body.get "caseId")),
                    currentStep := some (strOf (body.get "currentStep")),
                    submissionId := some (submissionIdOf (body.get "submissionId") genId),
                    warning := sf.map sheetsWarningOf },
          db := applyTx db (submissionIdOf (body.get "submissionId") genId)
                  (strOf (body.get "caseId")) (strOf (body.get "currentStep"))
                  (.obj (addCity (strOf (body.get "currentStep"))
                    (spreadCopy ((body.get "stepData").getD .null)) geo)) ua ip,
          mirrorCalls := 1 } := by
  have hv := validateStepData_valid_iff (strOf (body.get "currentStep"))
    ((body.get "stepData").getD .null)
  simp only [requestValidationError] at hok
  simp only [handleCaseProgress]
  rw [if_neg hnn]
  split_ifs at hok ⊢ <;> simp_all

theorem mkUpdateData_contactEmail_none (step : String) (p : JsonVal)
    (h : step ≠ "contact") : (mkUpdateData step p).contactEmail = none := by
  unfold mkUpdateData
  rw [if_neg h]
  split_ifs <;> (try split) <;> (try split) <;> rfl

theorem mkUpdateData_contactPhone_none (step : String) (p : JsonVal)
    (h : step ≠ "contact") : (mkUpdateData step p).contactPhone = none := by
  unfold mkUpdateData
  rw [if_neg h]
  split_ifs <;> (try split) <;> (try split) <;> rfl

theorem mkUpdateData_hospitalName_none (step : String) (p : JsonVal)
    (h : step ≠ "hospital") : (mkUpdateData step p).hospitalName = none := by
  unfold mkUpdateData
  split_ifs <;> (try split) <;> (try split) <;> rfl

theorem mkUpdateData_balanceAmount_none (step : String) (p : JsonVal)
    (h : step ≠ "balance") : (mkUpdateData step p).balanceAmount = none := by
  unfold mkUpdateData
  split_ifs <;> (try split) <;> (try split) <;> rfl

theorem mkUpdateData_inCollections_none (step : String) (p : JsonVal)
    (h : step ≠ "balance") : (mkUpdateData step p).inCollections = none := by
  unfold mkUpdateData
  split_ifs <;> (try split) <;> (try split) <;> rfl

/-- **C2**: applying a step submission to the store computes the new
`progress` map as a shallow per-key replace: the submitted step key maps
to the new payload and every other key keeps its existing payload; in
particular, submitting "hospital" then "balance" yields a map containing
both keys, and submitting "hospital" again afterwards changes only the
"hospital" entry. -/
theorem progress_shallow_per_key_replace
    (db : DB) (sid cid step : String) (p : JsonVal) (ua ip : Option String) :
    ((progressOf (applyTx db sid cid step p ua ip) cid).get step = some p ∧
      ∀ k, k ≠ step →
        (progressOf (applyTx db sid cid step p ua ip) cid).get k =
          (progressOf db cid).get k) ∧
    ∀ s1 s2 s3 : String, ∀ p1 p2 p3 : JsonVal,
      (progressOf (applyTx (applyTx db s1 cid "hospital" p1 ua ip)
          s2 cid "balance" p2 ua ip) cid).get "hospital" = some p1 ∧
      (progressOf (applyTx (applyTx db s1 cid "hospital" p1 ua ip)
          s2 cid "balance" p2 ua ip) cid).get "balance" = some p2 ∧
      (progressOf (applyTx (applyTx (applyTx db s1 cid "hospital" p1 ua ip)
          s2 cid "balance" p2 ua ip) s3 cid "hospital" p3 ua ip) cid).get
          "hospital" = some p3 ∧
      (progressOf (applyTx (applyTx (applyTx db s1 cid "hospital" p1 ua ip)
          s2 cid "balance" p2 ua ip) s3 cid "hospital" p3 ua ip) cid).get
          "balance" = some p2 := by
  refine ⟨⟨?_, ?_⟩, ?_⟩
  · simp [progressOf_applyTx, JFields.get_set]
  · intro k hk
    simp [progressOf_applyTx, JFields.get_set, hk]
  · intro s1 s2 s3 p1 p2 p3
    refine ⟨?_, ?_, ?_, ?_⟩ <;>
      simp [progressOf_applyTx, JFields.get_set]

/-- **C2** witness: submitting step "hospital" on an empty store stores
the payload under "hospital" and leaves the (absent) "balance" entry
unchanged. -/
theorem progress_shallow_per_key_replace_witness :
    (progressOf (applyTx ⟨[], []⟩ "s1" "c1" "hospital" (hospitalPayload "G") none none)
        "c1").get "hospital" = some (hospitalPayload "G") ∧
    (progressOf (applyTx ⟨[], []⟩ "s1" "c1" "hospital" (hospitalPayload "G") none none)
        "c1").get "balance" = (progressOf (⟨[], []⟩ : DB) "c1").get "balance" :=
  ⟨(progress_shallow_per_key_replace ⟨[], []⟩ "s1" "c1" "hospital"
      (hospitalPayload "G") none none).1.1,
   (progress_shallow_per_key_replace ⟨[], []⟩ "s1" "c1" "hospital"
      (hospitalPayload "G") none none).1.2 "balance" (by decide)⟩

/-- **C3**: one step submission writes only the denormalized `Case`
columns relevant to that step; every other denormalized column keeps its
stored value — in particular a "balance" step leaves an earlier
`hospitalName` intact, and a non-"contact" step never touches
`contactEmail` / `contactPhone`. -/
theorem denormalized_columns_frame (db : DB) (sid cid step : String) (p : JsonVal)
    (ua ip : Option String) (row : CaseRow) (hrow : db.findCase cid = some row) :
    ∃ row', (applyTx db sid cid step p ua ip).findCase cid = some row' ∧
      (step ≠ "contact" → row'.contactEmail = row.contactEmail ∧
                          row'.contactPhone = row.contactPhone) ∧
      (step ≠ "hospital" → row'.hospitalName = row.hospitalName) ∧
      (step ≠ "balance" → row'.balanceAmount = row.balanceAmount ∧
                          row'.inCollections = row.inCollections) := by
  refine ⟨txCaseRow db cid step p, applyTx_findCase db sid cid step p ua ip,
    ?_, ?_, ?_⟩
  · intro h
    unfold txCaseRow
    rw [hrow]
    simp [applyUpdate, mkUpdateData_contactEmail_none step p h,
      mkUpdateData_contactPhone_none step p h]
  · intro h
    unfold txCaseRow
    rw [hrow]
    simp [applyUpdate, mkUpdateData_hospitalName_none step p h]
  · intro h
    unfold txCaseRow
    rw [hrow]
    simp [applyUpdate, mkUpdateData_balanceAmount_none step p h,
      mkUpdateData_inCollections_none step p h]

/-- **C3** witness: a "balance" submission on a store whose `Case` row
has `hospitalName = "General"` leaves that column (and the contact
columns) unchanged. -/
theorem denormalized_columns_frame_witness :
    ∃ row', (applyTx dupDb "s2" "c1" "balance" (.obj (.cons "balanceAmount"
        (.num 500) .nil)) none none).findCase "c1" = some row' ∧
      row'.hospitalName = some "General" := by
  obtain ⟨row', hfind, _, hhosp, _⟩ :=
    denormalized_columns_frame dupDb "s2" "c1" "balance"
      (.obj (.cons "balanceAmount" (.num 500) .nil)) none none
      { caseId := "c1", currentStep := "hospital",
        progress := .obj (.cons "hospital" (hospitalPayload "General") .nil),
        hospitalName := some "General" } (by decide)
  exact ⟨row', hfind, by rw [hhosp (by decide)]⟩

theorem mkBody_get_submissionId (sid cid step : String) (p : JsonVal) :
    (mkBody sid cid step p).get "submissionId" = some (.str sid) := rfl

theorem mkBody_get_caseId (sid cid step : String) (p : JsonVal) :
    (mkBody sid cid step p).get "caseId" = some (.str cid) := rfl

theorem mkBody_get_currentStep (sid cid step : String) (p : JsonVal) :
    (mkBody sid cid step p).get "currentStep" = some (.str step) := rfl

theorem mkBody_get_stepData (sid cid step : String) (p : JsonVal) :
    (mkBody sid cid step p).get "stepData" = some p := rfl

theorem mkBody_ne_null (sid cid step : String) (p : JsonVal) :
    mkBody sid cid step p ≠ .null := by
  simp [mkBody]

theorem requestValidationError_mkBody (sid cid step : String) (p : JsonVal)
    (hcid : cid ≠ "") (hstep : step ≠ "")
    (hobj : notAnObject p = false)
    (hval : (validateStepData step p).error = none) :
    requestValidationError (mkBody sid cid step p) = none := by
  unfold requestValidationError
  rw [mkBody_get_caseId, mkBody_get_currentStep, mkBody_get_stepData]
  simp [truthyOpt, JsonVal.truthy, JsonVal.falsy, isStringField, hcid, hstep,
    hobj, strOf, hval]

/-- **C1** counterexample: the store already holds submission `"s1"`
(a "hospital" event with payload `{hospitalName: "General"}`); re-submitting
the same `submissionId` with a different payload `{hospitalName: "Other"}`
still returns success and inserts no second event row, but it does change
the `Case` row's `progress` map, contradicting the claim that a duplicate
request leaves `progress` unmodified. -/
theorem duplicate_submission_counterexample :
    dupDb.hasSubmission "s1" = true ∧
    (handleCaseProgress dupDb dupBody "g1" none none none none none).resp.status = 200 ∧
    (handleCaseProgress dupDb dupBody "g1" none none none none none).resp.success = some true ∧
    (handleCaseProgress dupDb dupBody "g1" none none none none none).db.events = dupDb.events ∧
    progressOf (handleCaseProgress dupDb dupBody "g1" none none none none none).db "c1" ≠
      progressOf dupDb "c1" := by
  decide

/-- **C1** amended: for a duplicate `submissionId` the handler still
returns success and the event log is unchanged (no second event row),
but the transaction still performs the `Case` upsert: `progress` gets
the duplicate request's payload under its step key — so a duplicate
carrying the identical `stepData` leaves `progress` unchanged, while one
carrying different `stepData` rewrites that step's entry. -/
theorem duplicate_submission_is_success_but_upserts
    (db : DB) (sid cid step : String) (fs : JFields) (genId : String)
    (ua ip : Option String) (sf : Option (Option String))
    (hdup : db.hasSubmission sid = true) (hsid : sid ≠ "") (hcid : cid ≠ "")
    (hstep : step ≠ "")
    (hval : (validateStepData step (.obj fs)).error = none) :
    (handleCaseProgress db (mkBody sid cid step (.obj fs)) genId none ua ip none sf).resp.status = 200 ∧
    (handleCaseProgress db (mkBody sid cid step (.obj fs)) genId none ua ip none sf).resp.success = some true ∧
    (handleCaseProgress db (mkBody sid cid step (.obj fs)) genId none ua ip none sf).db.events = db.events ∧
    progressOf (handleCaseProgress db (mkBody sid cid step (.obj fs)) genId none ua ip none sf).db cid =
      (progressOf db cid).set step (.obj fs) ∧
    ((progressOf db cid).get step = some (.obj fs) →
      progressOf (handleCaseProgress db (mkBody sid cid step (.obj fs)) genId none ua ip none sf).db cid =
        progressOf db cid) := by
  have hok := requestValidationError_mkBody sid cid step (.obj fs) hcid hstep
    (by simp [notAnObject, JsonVal.falsy, JsonVal.typeofObject]) hval
  have h := handleCaseProgress_of_valid db (mkBody sid cid step (.obj fs)) genId
    none ua ip none sf (mkBody_ne_null sid cid step (.obj fs)) hok
  rw [h]
  have hsidOf : submissionIdOf ((mkBody sid cid step (.obj fs)).get "submissionId") genId = sid := by
    rw [mkBody_get_submissionId]
    simp [submissionIdOf, hsid]
  have hstr1 : strOf ((mkBody sid cid step (.obj fs)).get "caseId") = cid := rfl
  have hstr2 : strOf ((mkBody sid cid step (.obj fs)).get "currentStep") = step := rfl
  have hsd : ((mkBody sid cid step (.obj fs)).get "stepData").getD .null = .obj fs := rfl
  simp only [hsidOf, hstr1, hstr2, hsd, spreadCopy, addCity_geo_none]
  refine ⟨trivial, trivial, applyTx_events_of_dup db sid cid step (.obj fs) ua ip hdup,
    progressOf_applyTx db sid cid step (.obj fs) ua ip, ?_⟩
  intro hsame
  rw [progressOf_applyTx db sid cid step (.obj fs) ua ip,
    JFields.set_get_self _ _ _ hsame]

/-- **C1** amended-claim witness: a duplicate of submission `"s1"` with
the identical payload returns 200, adds no event row and leaves the
stored `progress` map exactly as it was. -/
theorem duplicate_submission_witness :
    (handleCaseProgress dupDb (mkBody "s1" "c1" "hospital" (hospitalPayload "General"))
        "g1" none none none none none).resp.status = 200 ∧
    (handleCaseProgress dupDb (mkBody "s1" "c1" "hospital" (hospitalPayload "General"))
        "g1" none none none none none).db.events = dupDb.events ∧
    progressOf (handleCaseProgress dupDb (mkBody "s1" "c1" "hospital"
        (hospitalPayload "General")) "g1" none none none none none).db "c1" =
      progressOf dupDb "c1" := by
  obtain ⟨h1, _, h3, _, h5⟩ :=
    duplicate_submission_is_success_but_upserts dupDb "s1" "c1" "hospital"
      (.cons "hospitalName" (.str "General") .nil) "g1" none none none
      (by decide) (by decide) (by decide) (by decide) (by decide)
  exact ⟨h1, h3, h5 (by decide)⟩

/-- **C4**: the sheet mirror runs at most once, and only when the
database transaction committed (no database fault); a mirror exception
is downgraded to a warning on an otherwise-successful 200 response
(warning present exactly when the mirror failed), and the committed
database state is identical whether or not the mirror failed (no
rollback, no retry). -/
theorem mirror_failure_isolation (db : DB) (body : JsonVal) (genId : String)
    (geo ua ip : Option String) (dbFault : Option DbError) (sf : Option (Option String)) :
    (handleCaseProgress db body genId geo ua ip dbFault sf).mirrorCalls ≤ 1 ∧
    ((handleCaseProgress db body genId geo ua ip dbFault sf).mirrorCalls = 1 →
      dbFault = none ∧
      (handleCaseProgress db body genId geo ua ip dbFault sf).resp.status = 200 ∧
      (handleCaseProgress db body genId geo ua ip dbFault sf).resp.success = some true ∧
      (handleCaseProgress db body genId geo ua ip dbFault sf).resp.warning = sf.map sheetsWarningOf ∧
      ((handleCaseProgress db body genId geo ua ip dbFault sf).resp.warning.isSome ↔ sf.isSome)) ∧
    ((handleCaseProgress db body genId geo ua ip dbFault sf).mirrorCalls = 0 →
      (handleCaseProgress db body genId geo ua ip dbFault sf).db = db) ∧
    (handleCaseProgress db body genId geo ua ip dbFault sf).db =
      (handleCaseProgress db body genId geo ua ip dbFault none).db := by
  rcases dbFault with _ | e <;> rcases sf with _ | m <;>
    simp only [handleCaseProgress] <;> split_ifs <;> simp

/-- **C4** witness: on a concrete valid request whose mirror call throws,
the handler still returns 200 with a warning and the same stored state
as the mirror-success run. -/
theorem mirror_failure_isolation_witness :
    (handleCaseProgress ⟨[], []⟩ (mkBody "s1" "c1" "hospital" (hospitalPayload "G"))
        "g1" none none none none (some (some "quota"))).mirrorCalls = 1 ∧
    (handleCaseProgress ⟨[], []⟩ (mkBody "s1" "c1" "hospital" (hospitalPayload "G"))
        "g1" none none none none (some (some "quota"))).resp.status = 200 ∧
    (handleCaseProgress ⟨[], []⟩ (mkBody "s1" "c1" "hospital" (hospitalPayload "G"))
        "g1" none none none none (some (some "quota"))).db =
      (handleCaseProgress ⟨[], []⟩ (mkBody "s1" "c1" "hospital" (hospitalPayload "G"))
        "g1" none none none none none).db := by
  have h := mirror_failure_isolation ⟨[], []⟩
    (mkBody "s1" "c1" "hospital" (hospitalPayload "G")) "g1" none none none none
    (some (some "quota"))
  exact ⟨by decide, (h.2.1 (by decide)).2.1, h.2.2.2⟩

/-- **C5** counterexample: the JSON body `null` is a request whose body
fails validation (it carries no `caseId`), yet the handler answers 500
(the member access throws a `TypeError` caught by the outer catch-all),
not the claimed 400 — though indeed with no store write. -/
theorem null_body_returns_500_not_400 :
    (handleCaseProgress ⟨[], []⟩ .null "g1" none none none none none).resp.status = 500 ∧
    (handleCaseProgress ⟨[], []⟩ .null "g1" none none none none none).resp.status ≠ 400 ∧
    (handleCaseProgress ⟨[], []⟩ .null "g1" none none none none none).resp.success = some false ∧
    (handleCaseProgress ⟨[], []⟩ .null "g1" none none none none none).db = ⟨[], []⟩ ∧
    (handleCaseProgress ⟨[], []⟩ .null "g1" none none none none none).mirrorCalls = 0 := by
  decide

/-- **C5** amended: for every request with a non-`null` body that fails
the route's validation (structural checks or `validateStepData`), the
handler returns HTTP 400 carrying exactly the first failing check's
reason string, the database is untouched (no event row, no `Case` row)
and the mirror is never invoked; a `null` body instead yields a 500
(also with no store write). -/
theorem validation_rejects_before_store (db : DB) (body : JsonVal) (genId : String)
    (geo ua ip : Option String) (dbFault : Option DbError) (sf : Option (Option String))
    (e : String) (hnn : body ≠ .null)
    (hfail : requestValidationError body = some e) :
    (handleCaseProgress db body genId geo ua ip dbFault sf).resp.status = 400 ∧
    (handleCaseProgress db body genId geo ua ip dbFault sf).resp.success = some false ∧
    (handleCaseProgress db body genId geo ua ip dbFault sf).resp.error = some e ∧
    (handleCaseProgress db body genId geo ua ip dbFault sf).db = db ∧
    (handleCaseProgress db body genId geo ua ip dbFault sf).mirrorCalls = 0 := by
  rw [handleCaseProgress_of_invalid db body genId geo ua ip dbFault sf e hnn hfail]
  simp [badRequest]

/-- **C5** amended-claim witness: the spec's own example
`{currentStep: "hospital", stepData: {}}` is rejected with a 400 naming
`hospitalName` and writes nothing. -/
theorem validation_rejects_before_store_witness :
    (handleCaseProgress dupDb (mkBody "s9" "c1" "hospital" (.obj .nil))
        "g1" none none none none none).resp.status = 400 ∧
    (handleCaseProgress dupDb (mkBody "s9" "c1" "hospital" (.obj .nil))
        "g1" none none none none none).resp.error =
      some "hospitalName is required and must be a string" ∧
    (handleCaseProgress dupDb (mkBody "s9" "c1" "hospital" (.obj .nil))
        "g1" none none none none none).db = dupDb := by
  obtain ⟨h1, _, h3, h4, _⟩ :=
    validation_rejects_before_store dupDb
      (mkBody "s9" "c1" "hospital" (.obj .nil)) "g1" none none none none none
      "hospitalName is required and must be a string" (by decide) (by decide)
  exact ⟨h1, h3, h4⟩

theorem isRetryable_iff (e : DbError) :
    e.isRetryable = true ↔
      ∃ msg, e = .known "P1001" msg ∨ e = .known "P1008" msg ∨
        e = .known "P1017" msg := by
  rcases e with ⟨code, msg⟩ | m | _ <;>
    simp [DbError.isRetryable, or_assoc]
  constructor
  · rintro (h | h | h) <;> exact ⟨msg, by simp [h]⟩
  · rintro ⟨m, (⟨h, _⟩ | ⟨h, _⟩ | ⟨h, _⟩)⟩ <;> simp [h]

/-- **C6**: when the transaction fails, the handler answers 503 with
`retryable: true` exactly for the transient infrastructure faults
(Prisma `P1001` connection error, `P1008` operation timeout, `P1017`
server closed connection) and 500 with `retryable: false` for every
other store failure; both carry `success: false` and an error string,
and the store is untouched. -/
theorem persistence_failure_classification (db : DB) (body : JsonVal)
    (genId : String) (geo ua ip : Option String) (sf : Option (Option String))
    (e : DbError) (hnn : body ≠ .null)
    (hok : requestValidationError body = none) :
    (handleCaseProgress db body genId geo ua ip (some e) sf).resp.success = some false ∧
    (handleCaseProgress db body genId geo ua ip (some e) sf).resp.error = some e.message ∧
    (handleCaseProgress db body genId geo ua ip (some e) sf).db = db ∧
    (handleCaseProgress db body genId geo ua ip (some e) sf).mirrorCalls = 0 ∧
    ((handleCaseProgress db body genId geo ua ip (some e) sf).resp.status = 503 ∧
      (handleCaseProgress db body genId geo ua ip (some e) sf).resp.retryable = some true ↔
      ∃ msg, e = .known "P1001" msg ∨ e = .known "P1008" msg ∨ e = .known "P1017" msg) ∧
    (¬(∃ msg, e = .known "P1001" msg ∨ e = .known "P1008" msg ∨ e = .known "P1017" msg) →
      (handleCaseProgress db body genId geo ua ip (some e) sf).resp.status = 500 ∧
      (handleCaseProgress db body genId geo ua ip (some e) sf).resp.retryable = some false) := by
  rw [handleCaseProgress_of_valid db body genId geo ua ip (some e) sf hnn hok]
  rcases hr : e.isRetryable with _ | _
  · have := (isRetryable_iff e).not.1 (by simp [hr])
    simp_all
  · have := (isRetryable_iff e).1 hr
    simp_all

/-- **C6** witness: a `P1001` connection error on a valid request yields
503 / retryable, a plain error yields 500 / non-retryable. -/
theorem persistence_failure_classification_witness :
    (handleCaseProgress ⟨[], []⟩ (mkBody "s1" "c1" "hospital" (hospitalPayload "G"))
        "g1" none none none (some (.known "P1001" "down")) none).resp.status = 503 ∧
    (handleCaseProgress ⟨[], []⟩ (mkBody "s1" "c1" "hospital" (hospitalPayload "G"))
        "g1" none none none (some (.genericError "boom")) none).resp.status = 500 := by
  refine ⟨((persistence_failure_classification ⟨[], []⟩
      (mkBody "s1" "c1" "hospital" (hospitalPayload "G")) "g1" none none none none
      (.known "P1001" "down") (by decide) (by decide)).2.2.2.2.1.2
      ⟨"down", Or.inl rfl⟩).1,
    ((persistence_failure_classification ⟨[], []⟩
      (mkBody "s1" "c1" "hospital" (hospitalPayload "G")) "g1" none none none none
      (.genericError "boom") (by decide) (by decide)).2.2.2.2.2 (by simp)).1⟩

theorem validateStepData_unknown (step : String) (fs : JFields)
    (h1 : step ≠ "hospital") (h2 : step ≠ "billType") (h3 : step ≠ "balance")
    (h4 : step ≠ "insurance") (h5 : step ≠ "contact") :
    validateStepData step (.obj fs) = vOk := by
  unfold validateStepData
  rw [if_neg h1, if_neg h2, if_neg h3, if_neg h4, if_neg h5,
    if_neg (show ¬notAnObject (.obj fs) = true by
      simp [notAnObject, JsonVal.falsy, JsonVal.typeofObject])]

/-- **C7**: for a step key outside the known set and any object payload,
the validator accepts (only the generic object-shape check applies), the
request succeeds with HTTP 200, and the payload is stored in the
progress map under that unknown step key. -/
theorem unknown_step_accepted (db : DB) (sid cid step : String) (fs : JFields)
    (genId : String) (geo ua ip : Option String) (sf : Option (Option String))
    (hsid : sid ≠ "") (hcid : cid ≠ "") (hstep : step ≠ "")
    (h1 : step ≠ "hospital") (h2 : step ≠ "billType") (h3 : step ≠ "balance")
    (h4 : step ≠ "insurance") (h5 : step ≠ "contact") :
    (validateStepData step (.obj fs)).valid = true ∧
    (handleCaseProgress db (mkBody sid cid step (.obj fs)) genId geo ua ip none sf).resp.status = 200 ∧
    (handleCaseProgress db (mkBody sid cid step (.obj fs)) genId geo ua ip none sf).resp.success = some true ∧
    (progressOf (handleCaseProgress db (mkBody sid cid step (.obj fs)) genId geo ua ip none sf).db cid).get step =
      some (.obj fs) := by
  have hvOk := validateStepData_unknown step fs h1 h2 h3 h4 h5
  have hok := requestValidationError_mkBody sid cid step (.obj fs) hcid hstep
    (by simp [notAnObject, JsonVal.falsy, JsonVal.typeofObject])
    (by rw [hvOk]; rfl)
  have h := handleCaseProgress_of_valid db (mkBody sid cid step (.obj fs)) genId
    geo ua ip none sf (mkBody_ne_null sid cid step (.obj fs)) hok
  have hstr1 : strOf ((mkBody sid cid step (.obj fs)).get "caseId") = cid := rfl
  have hstr2 : strOf ((mkBody sid cid step (.obj fs)).get "currentStep") = step := rfl
  have hsd : ((mkBody sid cid step (.obj fs)).get "stepData").getD .null = .obj fs := rfl
  rw [h]
  simp only [hstr1, hstr2, hsd, spreadCopy]
  rw [addCity_of_ne_hospital step fs geo h1]
  refine ⟨by rw [hvOk]; rfl, trivial, trivial, ?_⟩
  rw [progressOf_applyTx]
  simp [JFields.get_set]

/-- **C7** witness: `{currentStep: "some-future-step", stepData: {x: 1}}`
is accepted, succeeds with 200, and the payload lands in `progress`
under `"some-future-step"`. -/
theorem unknown_step_accepted_witness :
    (validateStepData "some-future-step" (.obj (.cons "x" (.num 1) .nil))).valid = true ∧
    (handleCaseProgress dupDb (mkBody "s7" "c1" "some-future-step"
        (.obj (.cons "x" (.num 1) .nil))) "g1" none none none none none).resp.status = 200 ∧
    (progressOf (handleCaseProgress dupDb (mkBody "s7" "c1" "some-future-step"
        (.obj (.cons "x" (.num 1) .nil))) "g1" none none none none none).db "c1").get
        "some-future-step" = some (.obj (.cons "x" (.num 1) .nil)) := by
  obtain ⟨w1, w2, _, w4⟩ :=
    unknown_step_accepted dupDb "s7" "c1" "some-future-step"
      (.cons "x" (.num 1) .nil) "g1" none none none none
      (by decide) (by decide) (by decide) (by decide) (by decide)
      (by decide) (by decide) (by decide)
  exact ⟨w1, w2, w4⟩

theorem truthy_string_iff (o : Option JsonVal) :
    (truthyOpt o && isStringField o) = true ↔
      ∃ s, o = some (.str s) ∧ s ≠ "" := by
  rcases o with _ | v
  · simp [truthyOpt, isStringField]
  · rcases v with s | n | b | _ | fs | its <;>
      simp [truthyOpt, isStringField, JsonVal.truthy, JsonVal.falsy]

theorem contact_valid_eq (fs : JFields) :
    (validateStepData "contact" (.obj fs)).valid =
      (!((fs.get "email").isSome && !isStringField (fs.get "email")) &&
       !((fs.get "email").isSome && truthyOpt (fs.get "email") &&
         !emailFieldMatches (fs.get "email")) &&
       (truthyOpt (fs.get "phone") && isStringField (fs.get "phone")) &&
       !((fs.get "agreedToTerms").isSome && !isBooleanField (fs.get "agreedToTerms"))) := by
  unfold validateStepData
  rw [if_neg (by decide : ¬("contact" : String) = "hospital"),
    if_neg (by decide : ¬("contact" : String) = "billType"),
    if_neg (by decide : ¬("contact" : String) = "balance"),
    if_neg (by decide : ¬("contact" : String) = "insurance"),
    if_pos rfl,
    if_neg (show ¬notAnObject (.obj fs) = true by
      simp [notAnObject, JsonVal.falsy, JsonVal.typeofObject])]
  simp only [JsonVal.get]
  generalize ((fs.get "email").isSome && !isStringField (fs.get "email")) = A
  generalize ((fs.get "email").isSome && truthyOpt (fs.get "email") &&
    !emailFieldMatches (fs.get "email")) = B
  generalize (truthyOpt (fs.get "phone") && isStringField (fs.get "phone")) = C
  split_ifs <;> simp_all [vErr, vOk, Bool.not_eq_true]
  rcases ht2 : fs.get "agreedToTerms" with _ | tv
  · exact Or.inl rfl
  · simp_all

theorem email_checks_false_iff (o : Option JsonVal) :
    ((o.isSome && !isStringField o) = false ∧
     (o.isSome && truthyOpt o && !emailFieldMatches o) = false) ↔
    (o = none ∨ ∃ s, o = some (.str s) ∧ (s = "" ∨ emailMatches s = true)) := by
  rcases o with _ | v
  · simp
  · rcases v with s | n | b | _ | ofs | oits <;>
      simp [isStringField, truthyOpt, JsonVal.truthy, JsonVal.falsy,
        emailFieldMatches]
    by_cases hs : s = "" <;> by_cases hm : emailMatches s = true <;>
      simp [hs, hm]

theorem bool_field_false_iff (o : Option JsonVal) :
    ((o.isSome && !isBooleanField o) = false) ↔
      (o = none ∨ ∃ b, o = some (.bool b)) := by
  rcases o with _ | v
  · simp
  · rcases v with s | n | b | _ | ofs | oits <;> simp [isBooleanField]

/-- **C8** counterexample: the DB-backed contact validator accepts
`{phone: "5551234", email: ""}` although the present `email` field does
not match the email pattern (the empty string is falsy, so the pattern
test is skipped), and the legacy sheets-only route's contact validator
rejects `{phone: "5551234"}` (a payload with a phone and no email, which
the claim calls valid) because it requires `email`. -/
theorem contact_validator_counterexample :
    (validateStepData "contact" (.obj (.cons "phone" (.str "5551234")
        (.cons "email" (.str "") .nil)))).valid = true ∧
    (JsonVal.obj (.cons "phone" (.str "5551234") (.cons "email" (.str "") .nil))).get
        "email" = some (.str "") ∧
    emailMatches "" = false ∧
    (validateContactLegacy (.obj (.cons "phone" (.str "5551234") .nil))).valid = false ∧
    (validateContactLegacy (.obj (.cons "phone" (.str "5551234") .nil))).error =
      some "email is required and must be a string" := by
  decide

/-- **C8** amended: the DB-backed route's contact validator accepts a
payload iff it has a non-empty string `phone`, any present `email` field
is a string that is either **empty** or matches the email pattern, and
any present `agreedToTerms` is a boolean; in particular a payload with a
phone and no email is valid and one without a phone is rejected.  (The
legacy sheets-only route's contact validator instead requires a
pattern-matching `email` and never checks `phone`.) -/
theorem contact_validator_characterization (fs : JFields) :
    ((validateStepData "contact" (.obj fs)).valid = true ↔
      ((∃ s, fs.get "phone" = some (.str s) ∧ s ≠ "") ∧
       (fs.get "email" = none ∨
         ∃ s, fs.get "email" = some (.str s) ∧ (s = "" ∨ emailMatches s = true)) ∧
       (fs.get "agreedToTerms" = none ∨
         ∃ b, fs.get "agreedToTerms" = some (.bool b)))) ∧
    ((validateStepData "contact" (.obj (.cons "phone" (.str "555") .nil))).valid = true) ∧
    ((validateStepData "contact" (.obj .nil)).valid = false) := by
  refine ⟨?_, by decide, by decide⟩
  rw [contact_valid_eq]
  constructor
  · intro h
    simp only [Bool.and_eq_true, Bool.not_eq_true'] at h
    obtain ⟨⟨⟨hA, hB⟩, hC1, hC2⟩, hD⟩ := h
    exact ⟨(truthy_string_iff _).1 (by simp [hC1, hC2]),
      (email_checks_false_iff _).1 ⟨hA, hB⟩,
      (bool_field_false_iff _).1 hD⟩
  · rintro ⟨hp, he, ht⟩
    obtain ⟨hA, hB⟩ := (email_checks_false_iff _).2 he
    have hC := (truthy_string_iff _).2 hp
    rw [Bool.and_eq_true] at hC
    have hD := (bool_field_false_iff _).2 ht
    simp only [Bool.and_eq_true, Bool.not_eq_true']
    exact ⟨⟨⟨hA, hB⟩, hC⟩, hD⟩

/-- **C10**: the hospital autocomplete returns an empty list whenever
the trimmed query is shorter than 2 characters, and otherwise at most 7
results, each derived from a hospital of the dataset whose lowercased
name, city or state contains the lowercased trimmed query as a
substring. -/
theorem hospitals_query_spec (hs : List Hospital) (raw : String) :
    ((trimChars raw.data).length < 2 → getHospitals hs raw = []) ∧
    (getHospitals hs raw).length ≤ 7 ∧
    ∀ r ∈ getHospitals hs raw, ∃ h ∈ hs, r = toSuggestion h ∧
      hospitalMatches (lowerChars (trimChars raw.data)) h = true := by
  refine ⟨?_, ?_, ?_⟩
  · intro hlen
    unfold getHospitals
    rw [if_pos]
    unfold lowerChars
    simpa using hlen
  · simp only [getHospitals]
    split_ifs
    · simp
    · rw [List.length_map, List.length_take]
      exact le_trans (min_le_left _ _) (le_refl 7)
  · intro r hr
    simp only [getHospitals] at hr
    split_ifs at hr
    · simp at hr
    · simp only [List.mem_map] at hr
      obtain ⟨h, hmem, rfl⟩ := hr
      have hmem2 := List.mem_of_mem_take hmem
      rw [List.mem_filter] at hmem2
      exact ⟨h, hmem2.1, rfl, hmem2.2⟩

/-- **C10** witness: on a one-hospital dataset, the query `"a"` (too
short) yields `[]`, and the query `" tx "` (trimmed, case-insensitive)
yields the hospital with at most 7 results. -/
theorem hospitals_query_spec_witness :
    getHospitals [⟨"1", "General Hospital", "Austin", "TX"⟩] "a" = [] ∧
    (getHospitals [⟨"1", "General Hospital", "Austin", "TX"⟩] " tx ").length ≤ 7 ∧
    ∀ r ∈ getHospitals [⟨"1", "General Hospital", "Austin", "TX"⟩] " tx ",
      ∃ h ∈ [(⟨"1", "General Hospital", "Austin", "TX"⟩ : Hospital)],
        r = toSuggestion h ∧
        hospitalMatches (lowerChars (trimChars " tx ".data)) h = true :=
  ⟨(hospitals_query_spec [⟨"1", "General Hospital", "Austin", "TX"⟩] "a").1 (by decide),
   (hospitals_query_spec [⟨"1", "General Hospital", "Austin", "TX"⟩] " tx ").2.1,
   (hospitals_query_spec [⟨"1", "General Hospital", "Austin", "TX"⟩] " tx ").2.2⟩

theorem charValidNat (c : Char) :
    c.toNat < 0xD800 ∨ (0xDFFF < c.toNat ∧ c.toNat < 0x110000) := by
  by_cases h : c.toNat.isValidChar
  · exact h
  · have h2 := Char.ofNat_toNat c
    rw [Char.ofNat, dif_neg h] at h2
    have h0 : c.toNat = 0 := by rw [← h2]; rfl
    rw [h0]
    exact Or.inl (by norm_num)

theorem utf8EncodeChar_lt (n : Nat) (h : n < 0x110000) :
    ∀ b ∈ utf8EncodeChar n, b < 256 := by
  unfold utf8EncodeChar
  split_ifs with h1 h2 h3 <;> intro b hb <;> simp at hb <;>
    first
      | (subst hb; omega)
      | (rcases hb with rfl | rfl <;> omega)
      | (rcases hb with rfl | rfl | rfl <;> omega)
      | (rcases hb with rfl | rfl | rfl | rfl <;> omega)

theorem utf8EncodeChars_lt (cs : List Char) :
    ∀ b ∈ utf8EncodeChars cs, b < 256 := by
  intro b hb
  simp only [utf8EncodeChars, List.mem_flatten, List.mem_map] at hb
  obtain ⟨l, ⟨c, hc, rfl⟩, hbl⟩ := hb
  exact utf8EncodeChar_lt c.toNat (by have := charValidNat c; omega) b hbl

theorem utf8DecodeOne_encodeChar (c : Char) (rest : List Nat) :
    utf8DecodeOne (utf8EncodeChar c.toNat ++ rest) = some (c, rest) := by
  have hv := charValidNat c
  have hofn : Char.ofNat c.toNat = c := Char.ofNat_toNat c
  unfold utf8EncodeChar
  split_ifs with h1 h2 h3
  · show utf8DecodeOne (c.toNat :: rest) = _
    simp only [utf8DecodeOne]
    rw [if_pos h1, hofn]
  · show utf8DecodeOne ((0xC0 + c.toNat / 0x40) :: (0x80 + c.toNat % 0x40) :: rest) = _
    simp only [utf8DecodeOne]
    rw [if_neg (by omega)]
    rw [if_neg (by omega)]
    rw [if_pos (by omega), if_pos (by constructor <;> omega)]
    have harg : (0xC0 + c.toNat / 0x40 - 0xC0) * 0x40 +
        (0x80 + c.toNat % 0x40 - 0x80) = c.toNat := by omega
    rw [harg, hofn]
  · show utf8DecodeOne ((0xE0 + c.toNat / 0x1000) ::
      (0x80 + c.toNat / 0x40 % 0x40) :: (0x80 + c.toNat % 0x40) :: rest) = _
    simp only [utf8DecodeOne]
    rw [if_neg (by omega)]
    rw [if_neg (by omega)]
    rw [if_neg (by omega)]
    rw [if_pos (by omega)]
    rw [if_pos (by exact ⟨⟨by omega, by omega⟩, by omega, by omega⟩)]
    have harg : (0xE0 + c.toNat / 0x1000 - 0xE0) * 0x1000 +
        (0x80 + c.toNat / 0x40 % 0x40 - 0x80) * 0x40 +
        (0x80 + c.toNat % 0x40 - 0x80) = c.toNat := by omega
    rw [if_neg (by rw [harg]; omega), harg, hofn]
  · show utf8DecodeOne ((0xF0 + c.toNat / 0x40000) ::
      (0x80 + c.toNat / 0x1000 % 0x40) :: (0x80 + c.toNat / 0x40 % 0x40) ::
      (0x80 + c.toNat % 0x40) :: rest) = _
    simp only [utf8DecodeOne]
    rw [if_neg (by omega)]
    rw [if_neg (by omega)]
    rw [if_neg (by omega)]
    rw [if_neg (by omega)]
    rw [if_pos (by omega)]
    rw [if_pos (by exact ⟨⟨by omega, by omega⟩, ⟨by omega, by omega⟩, by omega, by omega⟩)]
    have harg : (0xF0 + c.toNat / 0x40000 - 0xF0) * 0x40000 +
        (0x80 + c.toNat / 0x1000 % 0x40 - 0x80) * 0x1000 +
        (0x80 + c.toNat / 0x40 % 0x40 - 0x80) * 0x40 +
        (0x80 + c.toNat % 0x40 - 0x80) = c.toNat := by omega
    rw [if_neg (by rw [harg]; omega), harg, hofn]

theorem utf8EncodeChar_ne_nil (n : Nat) : utf8EncodeChar n ≠ [] := by
  unfold utf8EncodeChar
  split_ifs <;> simp

theorem utf8DecodeLoop_encode (cs : List Char) : ∀ fuel : Nat,
    (utf8EncodeChars cs).length ≤ fuel →
    utf8DecodeLoop fuel (utf8EncodeChars cs) = some cs := by
  induction cs with
  | nil => intro fuel _; cases fuel <;> rfl
  | cons c t ih =>
    intro fuel h
    have hsplit : utf8EncodeChars (c :: t) =
        utf8EncodeChar c.toNat ++ utf8EncodeChars t := by
      simp [utf8EncodeChars]
    rcases heq : utf8EncodeChar c.toNat with _ | ⟨b, bs⟩
    · exact absurd heq (utf8EncodeChar_ne_nil c.toNat)
    · rw [hsplit, heq] at h ⊢
      rcases fuel with _ | f
      · simp at h
      · show utf8DecodeLoop (f + 1) (b :: (bs ++ utf8EncodeChars t)) = _
        rw [utf8DecodeLoop]
        have hone : utf8DecodeOne (b :: (bs ++ utf8EncodeChars t)) =
            some (c, utf8EncodeChars t) := by
          have := utf8DecodeOne_encodeChar c (utf8EncodeChars t)
          rwa [heq] at this
        rw [hone]
        show Option.map (fun cs => c :: cs) (utf8DecodeLoop f (utf8EncodeChars t)) =
          some (c :: t)
        rw [ih f (by simp at h; omega)]
        rfl

theorem utf8Decode_encode (cs : List Char) :
    utf8DecodeChars (utf8EncodeChars cs) = some cs :=
  utf8DecodeLoop_encode cs (utf8EncodeChars cs).length (le_refl _)

theorem b64Char_ne_dot (i : Nat) : b64Char i ≠ '.' := by
  unfold b64Char
  have hall : ∀ x ∈ b64Alpha, x ≠ '.' := by decide
  rcases h : b64Alpha[i]? with _ | c
  · rw [List.getD_eq_getElem?_getD, h]
    decide
  · rw [List.getD_eq_getElem?_getD, h]
    simpa using hall c (List.getElem?_mem h)

theorem b64Encode_no_dot : ∀ bs : List Nat, '.' ∉ b64Encode bs
  | [] => by simp [b64Encode]
  | [b1] => by
    intro h
    simp [b64Encode] at h
    rcases h with h | h <;> exact b64Char_ne_dot _ h.symm
  | [b1, b2] => by
    intro h
    simp [b64Encode] at h
    rcases h with h | h | h <;> exact b64Char_ne_dot _ h.symm
  | b1 :: b2 :: b3 :: rest => by
    intro h
    simp [b64Encode] at h
    rcases h with h | h | h | h | h
    · exact b64Char_ne_dot _ h.symm
    · exact b64Char_ne_dot _ h.symm
    · exact b64Char_ne_dot _ h.symm
    · exact b64Char_ne_dot _ h.symm
    · exact b64Encode_no_dot rest h

theorem b64Index_b64Char : ∀ i < 64, b64Index (b64Char i) = some i := by decide

theorem b64Decode_encode : ∀ bs : List Nat, (∀ b ∈ bs, b < 256) →
    b64Decode (b64Encode bs) = some bs
  | [], _ => rfl
  | [b1], h => by
    have hb1 : b1 < 256 := h b1 (by simp)
    show b64Decode [b64Char (b1 / 4), b64Char (b1 % 4 * 16)] = some [b1]
    simp only [b64Decode]
    rw [b64Index_b64Char _ (by omega), b64Index_b64Char _ (by omega)]
    simp
    omega
  | [b1, b2], h => by
    have hb1 : b1 < 256 := h b1 (by simp)
    have hb2 : b2 < 256 := h b2 (by simp)
    show b64Decode [b64Char (b1 / 4), b64Char (b1 % 4 * 16 + b2 / 16),
      b64Char (b2 % 16 * 4)] = some [b1, b2]
    simp only [b64Decode]
    rw [b64Index_b64Char _ (by omega), b64Index_b64Char _ (by omega),
      b64Index_b64Char _ (by omega)]
    simp
    omega
  | b1 :: b2 :: b3 :: rest, h => by
    have hb1 : b1 < 256 := h b1 (by simp)
    have hb2 : b2 < 256 := h b2 (by simp)
    have hb3 : b3 < 256 := h b3 (by simp)
    have hrec := b64Decode_encode rest
      (fun b hb => h b (by simp at hb ⊢; tauto))
    show b64Decode (b64Char (b1 / 4) :: b64Char (b1 % 4 * 16 + b2 / 16) ::
      b64Char (b2 % 16 * 4 + b3 / 64) :: b64Char (b3 % 64) ::
      b64Encode rest) = some (b1 :: b2 :: b3 :: rest)
    simp only [b64Decode]
    rw [b64Index_b64Char _ (by omega), b64Index_b64Char _ (by omega),
      b64Index_b64Char _ (by omega), b64Index_b64Char _ (by omega), hrec]
    simp
    omega

theorem splitDots_no_dot : ∀ a : List Char, '.' ∉ a → splitDots a = [a]
  | [], _ => rfl
  | c :: rest, h => by
    have hc : c ≠ '.' := fun e => h (by simp [e])
    have hrest : '.' ∉ rest := fun e => h (by simp [e])
    simp only [splitDots]
    rw [splitDots_no_dot rest hrest]
    simp [hc]

theorem splitDots_append : ∀ a : List Char, '.' ∉ a → ∀ rest : List Char,
    splitDots (a ++ '.' :: rest) = a :: splitDots rest
  | [], _, rest => by
    simp only [List.nil_append, splitDots]
    simp
  | c :: t, h, rest => by
    have hc : c ≠ '.' := fun e => h (by simp [e])
    have ht : '.' ∉ t := fun e => h (by simp [e])
    show splitDots (c :: (t ++ '.' :: rest)) = _
    simp only [splitDots]
    rw [splitDots_append t ht rest]
    simp [hc]

theorem toNat_ofNat_valid (n : Nat) (h : n < 0xD800) : (Char.ofNat n).toNat = n := by
  rw [Char.ofNat, dif_pos (Or.inl h)]
  rfl

theorem digitChar_toNat (m : Nat) (h : m < 10) : (digitChar m).toNat = 48 + m := by
  unfold digitChar
  exact toNat_ofNat_valid (48 + m) (by omega)

theorem digitChar_isDigit (m : Nat) (h : m < 10) : (digitChar m).isDigit = true := by
  interval_cases m <;> decide

theorem natDigits_ne_nil (n : Nat) : natDigits n ≠ [] := by
  rw [natDigits]
  split_ifs <;> simp

theorem natDigits_all_digit (n : Nat) : ∀ c ∈ natDigits n, c.isDigit = true := by
  induction n using Nat.strong_induction_on with
  | _ n ih =>
    rw [natDigits]
    split_ifs with h
    · intro c hmem
      simp at hmem
      rw [hmem]
      exact digitChar_isDigit n h
    · intro c hmem
      simp at hmem
      obtain hmem | hmem := hmem
      · exact ih (n / 10) (by omega) c hmem
      · rw [hmem]
        exact digitChar_isDigit (n % 10) (by omega)

theorem digitsVal_append (l : List Char) (d : Char) :
    digitsVal (l ++ [d]) = digitsVal l * 10 + (d.toNat - 48) := by
  simp [digitsVal, List.foldl_append]

theorem digitsVal_natDigits (n : Nat) : digitsVal (natDigits n) = n := by
  induction n using Nat.strong_induction_on with
  | _ n ih =>
    rw [natDigits]
    split_ifs with h
    · simp [digitsVal, digitChar_toNat n h]
    · rw [digitsVal_append, ih (n / 10) (by omega), digitChar_toNat _ (by omega)]
      omega

theorem takeWhile_digits_append (l : List Char) (d : Char) (r : List Char)
    (hl : ∀ c ∈ l, Char.isDigit c = true) (hd : Char.isDigit d = false) :
    (l ++ d :: r).takeWhile Char.isDigit = l ∧
    (l ++ d :: r).dropWhile Char.isDigit = d :: r := by
  induction l with
  | nil => simp [List.takeWhile, List.dropWhile, hd]
  | cons c t ih =>
    have hc := hl c (by simp)
    have ht : ∀ x ∈ t, Char.isDigit x = true := fun x hx => hl x (by simp [hx])
    simp [List.takeWhile, List.dropWhile, hc, (ih ht).1, (ih ht).2]

theorem expectPrefix_append : ∀ pat rest : List Char,
    expectPrefix pat (pat ++ rest) = some rest
  | [], rest => rfl
  | p :: ps, rest => by
    simp [expectPrefix, expectPrefix_append ps rest]

theorem hexVal_hexDigit : ∀ m < 16, hexVal (hexDigit m) = some m := by decide

theorem jsonEscapeChar_head (c : Char) :
    ∃ e1 erest, jsonEscapeChar c = e1 :: erest ∧ e1 ≠ '"' := by
  unfold jsonEscapeChar
  split_ifs with h1 h2 h3 h4 h5 h6 h7 h8 <;>
    first
      | exact ⟨_, _, rfl, by decide⟩
      | exact ⟨c, [], rfl, h1⟩

theorem unescapeOne_escape (c : Char) (rest : List Char) :
    unescapeOne (jsonEscapeChar c ++ rest) = some (c, rest) := by
  unfold jsonEscapeChar
  split_ifs with h1 h2 h3 h4 h5 h6 h7 h8
  · subst h1; rfl
  · subst h2; rfl
  · subst h3; rfl
  · subst h4; rfl
  · subst h5; rfl
  · subst h6; rfl
  · subst h7; rfl
  · show unescapeOne ('\\' :: 'u' :: '0' :: '0' ::
      hexDigit (c.toNat / 16) :: hexDigit (c.toNat % 16) :: rest) = _
    simp only [unescapeOne, hexVal_hexDigit (c.toNat / 16) (by omega),
      hexVal_hexDigit (c.toNat % 16) (by omega),
      (by decide : hexVal '0' = some 0)]
    norm_num
    rw [if_neg (by decide), if_neg (by decide), if_neg (by decide),
      if_neg (by decide), if_neg (by decide), if_neg (by decide),
      if_neg (by decide), if_neg (by decide)]
    have harg : c.toNat / 16 * 16 + c.toNat % 16 = c.toNat := by omega
    rw [harg, Char.ofNat_toNat]
  · show unescapeOne (c :: rest) = _
    simp only [unescapeOne]
    rw [if_neg h2, if_neg (by omega)]

theorem parseStringBody_escape : ∀ (cs tail : List Char) (fuel : Nat),
    cs.length ≤ fuel →
    parseStringBody fuel (escapeChars cs ++ '"' :: tail) = some (cs, tail)
  | [], tail, fuel, _ => by
    show parseStringBody fuel ('"' :: tail) = some ([], tail)
    cases fuel <;> rfl
  | c :: cs', tail, fuel, h => by
    have hsp : escapeChars (c :: cs') ++ '"' :: tail =
        jsonEscapeChar c ++ (escapeChars cs' ++ '"' :: tail) := by
      simp [escapeChars]
    rw [hsp]
    obtain ⟨f, rfl⟩ : ∃ f, fuel = f + 1 := ⟨fuel - 1, by simp at h; omega⟩
    obtain ⟨e1, erest, hesc, he1⟩ := jsonEscapeChar_head c
    rw [hesc]
    show parseStringBody (f + 1) (e1 :: (erest ++ (escapeChars cs' ++ '"' :: tail))) = _
    rw [parseStringBody, if_neg he1]
    have hone : unescapeOne (e1 :: (erest ++ (escapeChars cs' ++ '"' :: tail))) =
        some (c, escapeChars cs' ++ '"' :: tail) := by
      have := unescapeOne_escape c (escapeChars cs' ++ '"' :: tail)
      rwa [hesc] at this
    rw [hone]
    show Option.map _ (parseStringBody f (escapeChars cs' ++ '"' :: tail)) = _
    rw [parseStringBody_escape cs' tail f (by simp at h; omega)]
    rfl

theorem parseJsonString_escape (cs tail : List Char) :
    parseJsonString (escapeChars cs ++ '"' :: tail) = some (cs, tail) := by
  unfold parseJsonString
  apply parseStringBody_escape
  have : cs.length ≤ (escapeChars cs).length := by
    induction cs with
    | nil => simp [escapeChars]
    | cons c t ih =>
      have hne := jsonEscapeChar_head c
      obtain ⟨e1, erest, hesc, _⟩ := hne
      simp [escapeChars, hesc] at ih ⊢
      omega
  simp
  omega

theorem parsePayload_stringify (caseId : String) (iat : Nat) :
    parsePayload (stringifyPayload caseId iat) = some (caseId.data, iat) := by
  have hdig : Char.isDigit '\x7d' = false := by decide
  have htake := (takeWhile_digits_append (natDigits iat) '\x7d' []
    (natDigits_all_digit iat) hdig).1
  have hdrop := (takeWhile_digits_append (natDigits iat) '\x7d' []
    (natDigits_all_digit iat) hdig).2
  have hne := natDigits_ne_nil iat
  unfold stringifyPayload
  rw [parsePayload.eq_def]
  simp [expectPrefix, parseJsonString_escape, htake, hdrop, hne,
    digitsVal_natDigits, -List.takeWhile_eq_nil_iff]

/-- **C9**: verifying a freshly signed bill token round-trips — for
every `caseId` (and clock value `iat`), `verifyBillToken` accepts
`signBillToken caseId`: the three-part dot format parses, the recomputed
HMAC-SHA-256 signature matches under the same `TOKEN_SECRET`, and the
decoded payload carries exactly the input `caseId`. -/
theorem verify_sign_roundtrip (caseId : String) (iat : Nat) :
    verifyBillToken (signBillToken caseId iat) = .ok ⟨caseId, iat⟩ := by
  simp only [signBillToken, verifyBillToken]
  rw [List.append_assoc, List.cons_append]
  rw [splitDots_append _ (b64Encode_no_dot _), splitDots_append _ (b64Encode_no_dot _),
    splitDots_no_dot _ (b64Encode_no_dot _)]
  dsimp only
  rw [if_pos rfl]
  rw [b64Decode_encode _ (utf8EncodeChars_lt _)]
  dsimp only
  rw [utf8Decode_encode]
  dsimp only
  rw [parsePayload_stringify]

/-- **C8** amended-claim witness: a contact payload with a phone and an
`agreedToTerms` boolean but no email is accepted, via the
characterization. -/
theorem contact_validator_characterization_witness :
    (validateStepData "contact" (.obj (.cons "phone" (.str "5551234")
        (.cons "agreedToTerms" (.bool true) .nil)))).valid = true :=
  (contact_validator_characterization (.cons "phone" (.str "5551234")
      (.cons "agreedToTerms" (.bool true) .nil))).1.2
    ⟨⟨"5551234", by decide, by decide⟩, Or.inl (by decide),
      Or.inr ⟨true, by decide⟩⟩
